import Mathlib

/-
Verification development for the carbon-footprint wizard in src/main.py.

The program is a six-step Streamlit questionnaire.  Session state consists of
a cursor `current_step`, a nested answer dictionary `user_responses`
(category -> question -> value), and two cached analysis results
(`food_order_analysis` and `final_result`).  This file embeds that state and
the step-rendering logic shallowly:

* the answer store is an insertion-ordered association list, exactly the
  observable behaviour of a Python dict (unique keys, first-match lookup,
  in-place overwrite, append on fresh key);
* each data-collection step (steps 1-4) is transcribed as a `Form` value, a
  straight-line list of widgets and conditionals copied item-by-item from the
  source, and `runForm` gives the semantics of one no-new-input rerender:
  every widget yields its pre-filled default (recomputed from the store, as
  the source does via `get_response`) and immediately stores it back via
  `store_response`, and a widget whose stored default violates a Streamlit
  widget precondition (a non-boolean checkbox default, a number below the
  widget minimum, a multiselect default outside the options) renders `none`,
  modelling the exception Streamlit raises;
* steps 5 and 6, navigation, and the OpenRouter response handling are
  modelled directly.

Machine-level caveats recorded once here: Python floats are modelled as `Rat`
(no float arithmetic occurs in the program: numeric widget values are only
stored, reloaded and compared against widget minima); `float`/`int` applied
to a numeric string is modelled as a failure (no code path stores a string in
a numeric slot, so the strict model only shrinks the domain on which render
is defined); JSON numbers are modelled as `Int` and string escaping in the
`json.dumps` fallback is omitted, neither of which any claim inspects.
-/

/-- Answer values storable in `st.session_state.user_responses`: the widgets
of main.py produce booleans (checkboxes), ints (sliders and int-valued
number inputs), floats (the distance number input), strings (select boxes,
radios, text areas) and lists of strings (multiselects). -/
inductive Value
  | b (x : Bool)
  | i (n : Int)
  | f (x : Rat)
  | s (t : String)
  | l (xs : List String)
deriving DecidableEq, Repr

/-- First-match association-list lookup, the observable behaviour of Python
dict indexing / `in` tests (dict keys are unique, so first match is the
match). -/
def lookupA {α : Type} : List (String × α) → String → Option α
  | [], _ => none
  | (k, v) :: rest, key => if k = key then some v else lookupA rest key

/-- The nested answer store `st.session_state.user_responses`. -/
abbrev Store := List (String × List (String × Value))

/-- Lookup of a (category, question) slot; `none` when the category or the
question is absent. -/
def getResponse? (st : Store) (cat q : String) : Option Value :=
  match lookupA st cat with
  | some m => lookupA m q
  | none => none

/-- `get_response(category, question, default)` from main.py: the stored
value if present, else the caller-supplied default. -/
def get_response (st : Store) (cat q : String) (default : Value) : Value :=
  (getResponse? st cat q).getD default

/-- Overwrite-or-append update of an inner dict, the behaviour of
`d[question] = response`: an existing key keeps its position, a fresh key is
appended. -/
def setA {α : Type} : List (String × α) → String → α → List (String × α)
  | [], key, v => [(key, v)]
  | (k, w) :: rest, key, v =>
    if k = key then (key, v) :: rest else (k, w) :: setA rest key v

/-- `store_response(category, question, response)` from main.py: creates the
category dict if absent (appended at the end, as Python dict insertion
does), then overwrites the question slot. -/
def store_response : Store → String → String → Value → Store
  | [], cat, q, v => [(cat, [(q, v)])]
  | (c, m) :: rest, cat, q, v =>
    if c = cat then (c, setA m q v) :: rest
    else (c, m) :: store_response rest cat q v

/-- The `if category not in st.session_state.user_responses:` initialisation
blocks at the top of steps 1-4: create an empty category dict when absent. -/
def ensureCat (st : Store) (cat : String) : Store :=
  match lookupA st cat with
  | some _ => st
  | none => st ++ [(cat, [])]

/-- Category presence (`category in st.session_state.user_responses`). -/
def hasCat (st : Store) (cat : String) : Bool :=
  (lookupA st cat).isSome

/-- Dict well-formedness of the association-list model: category keys are
pairwise distinct and so are the question keys of every inner dict.  Python
dicts satisfy this by construction; the wizard must preserve it (claim C2's
"no duplicate entries"). -/
def WF (st : Store) : Prop :=
  (st.map Prod.fst).Nodup ∧ ∀ p ∈ st, (p.2.map Prod.fst).Nodup

theorem lookupA_setA_same {α : Type} (m : List (String × α)) (k : String) (v : α) :
    lookupA (setA m k v) k = some v := by
  induction m with
  | nil => simp [setA, lookupA]
  | cons p rest ih =>
    obtain ⟨pk, pv⟩ := p
    by_cases h : pk = k
    · simp [setA, h, lookupA]
    · simp [setA, h, lookupA, ih]

theorem lookupA_setA_ne {α : Type} (m : List (String × α)) (k k' : String) (v : α)
    (h : k ≠ k') : lookupA (setA m k v) k' = lookupA m k' := by
  induction m with
  | nil => simp [setA, lookupA, h]
  | cons p rest ih =>
    obtain ⟨pk, pv⟩ := p
    by_cases hpk : pk = k
    · simp [setA, hpk, lookupA, h]
    · by_cases hpk' : pk = k'
      · simp [setA, hpk, lookupA, hpk', Ne.symm h]
      · simp [setA, hpk, lookupA, hpk', ih]

theorem setA_noop {α : Type} (m : List (String × α)) (k : String) (v : α)
    (h : lookupA m k = some v) : setA m k v = m := by
  induction m with
  | nil => simp [lookupA] at h
  | cons p rest ih =>
    obtain ⟨pk, pv⟩ := p
    by_cases hpk : pk = k
    · simp [lookupA, hpk] at h
      simp [setA, hpk, h]
    · simp [lookupA, hpk] at h
      simp [setA, hpk, ih h]

theorem get_set_same (st : Store) (cat q : String) (v : Value) :
    getResponse? (store_response st cat q v) cat q = some v := by
  induction st with
  | nil => simp [store_response, getResponse?, lookupA]
  | cons p rest ih =>
    obtain ⟨c, m⟩ := p
    by_cases hc : c = cat
    · simp [store_response, hc, getResponse?, lookupA, lookupA_setA_same]
    · simpa [store_response, hc, getResponse?, lookupA] using ih

theorem get_set_ne (st : Store) (cat q cat' q' : String) (v : Value)
    (h : cat ≠ cat' ∨ q ≠ q') :
    getResponse? (store_response st cat q v) cat' q' = getResponse? st cat' q' := by
  induction st with
  | nil =>
    by_cases hc : cat = cat'
    · have hq : q ≠ q' := h.resolve_left (by simp [hc])
      simp [store_response, getResponse?, lookupA, hc, hq]
    · simp [store_response, getResponse?, lookupA, hc]
  | cons p rest ih =>
    obtain ⟨c, m⟩ := p
    by_cases hc : c = cat
    · subst hc
      by_cases hc' : c = cat'
      · subst hc'
        have hq : q ≠ q' := h.resolve_left (fun hne => hne rfl)
        simp [store_response, getResponse?, lookupA, lookupA_setA_ne m q q' v hq]
      · simp [store_response, getResponse?, lookupA, hc']
    · by_cases hc' : c = cat'
      · subst hc'
        simp [store_response, hc, getResponse?, lookupA]
      · simpa [store_response, hc, getResponse?, lookupA, hc'] using ih

theorem set_noop (st : Store) (cat q : String) (v : Value)
    (h : getResponse? st cat q = some v) : store_response st cat q v = st := by
  induction st with
  | nil => simp [getResponse?, lookupA] at h
  | cons p rest ih =>
    obtain ⟨c, m⟩ := p
    by_cases hc : c = cat
    · simp [getResponse?, lookupA, hc] at h
      simp [store_response, hc, setA_noop m q v h]
    · simp [getResponse?, lookupA, hc] at h
      simp [store_response, hc, ih h]

theorem lookupA_append_some {α : Type} (xs ys : List (String × α)) (k : String) (v : α)
    (h : lookupA xs k = some v) : lookupA (xs ++ ys) k = some v := by
  induction xs with
  | nil => simp [lookupA] at h
  | cons p rest ih =>
    obtain ⟨pk, pv⟩ := p
    by_cases hpk : pk = k
    · simp [lookupA, hpk] at h ⊢; exact h
    · simp [lookupA, hpk] at h ⊢; exact ih h

theorem lookupA_append_none {α : Type} (xs ys : List (String × α)) (k : String)
    (h : lookupA xs k = none) : lookupA (xs ++ ys) k = lookupA ys k := by
  induction xs with
  | nil => simp [lookupA]
  | cons p rest ih =>
    obtain ⟨pk, pv⟩ := p
    by_cases hpk : pk = k
    · simp [lookupA, hpk] at h
    · simp [lookupA, hpk] at h ⊢; exact ih h

theorem get_ensure (st : Store) (c cat q : String) :
    getResponse? (ensureCat st c) cat q = getResponse? st cat q := by
  unfold ensureCat
  cases hc : lookupA st c with
  | some m => rfl
  | none =>
    unfold getResponse?
    cases hcat : lookupA st cat with
    | some m => rw [lookupA_append_some _ _ _ _ hcat]
    | none =>
      rw [lookupA_append_none _ _ _ hcat]
      by_cases hcc : c = cat
      · subst hcc; simp [lookupA]
      · simp [lookupA, hcc]

theorem ensure_noop (st : Store) (c : String) (h : hasCat st c = true) :
    ensureCat st c = st := by
  unfold hasCat at h
  unfold ensureCat
  cases hc : lookupA st c with
  | some m => rfl
  | none => rw [hc] at h; simp at h

theorem hasCat_ensure_self (st : Store) (c : String) :
    hasCat (ensureCat st c) c = true := by
  unfold ensureCat
  cases hc : lookupA st c with
  | some m => simp [hasCat, hc]
  | none => simp [hasCat, lookupA_append_none _ _ _ hc, lookupA]

theorem hasCat_ensure_mono (st : Store) (c c' : String) (h : hasCat st c' = true) :
    hasCat (ensureCat st c) c' = true := by
  unfold hasCat at h ⊢
  unfold ensureCat
  cases hc : lookupA st c with
  | some m => exact h
  | none =>
    cases hc' : lookupA st c' with
    | some m => simp [lookupA_append_some _ _ _ _ hc']
    | none => rw [hc'] at h; simp at h

theorem hasCat_store_mono (st : Store) (cat q : String) (v : Value) (c : String)
    (h : hasCat st c = true) : hasCat (store_response st cat q v) c = true := by
  induction st with
  | nil => simp [hasCat, lookupA] at h
  | cons p rest ih =>
    obtain ⟨pk, pv⟩ := p
    by_cases hpk : pk = cat
    · subst hpk
      by_cases hpc : pk = c
      · subst hpc
        simp [store_response, hasCat, lookupA]
      · simp [hasCat, lookupA, hpc] at h
        simpa [store_response, hasCat, lookupA, hpc] using h
    · by_cases hpc : pk = c
      · subst hpc
        simp [store_response, hasCat, lookupA, hpk]
      · simp [hasCat, lookupA, hpc] at h
        simpa [store_response, hasCat, lookupA, hpk, hpc] using ih h

theorem hasCat_store_self (st : Store) (cat q : String) (v : Value) :
    hasCat (store_response st cat q v) cat = true := by
  induction st with
  | nil => simp [store_response, hasCat, lookupA]
  | cons p rest ih =>
    obtain ⟨pk, pv⟩ := p
    by_cases hpk : pk = cat
    · simp [store_response, hpk, hasCat, lookupA]
    · simpa [store_response, hpk, hasCat, lookupA] using ih

theorem lookupA_none_not_mem {α : Type} (xs : List (String × α)) (k : String)
    (h : lookupA xs k = none) : k ∉ xs.map Prod.fst := by
  induction xs with
  | nil => simp
  | cons p rest ih =>
    obtain ⟨pk, pv⟩ := p
    by_cases hpk : pk = k
    · simp [lookupA, hpk] at h
    · simp [lookupA, hpk] at h
      simp [ih h, Ne.symm hpk]

theorem setA_keys {α : Type} (m : List (String × α)) (k : String) (v : α) :
    (setA m k v).map Prod.fst =
      if (lookupA m k).isSome then m.map Prod.fst else m.map Prod.fst ++ [k] := by
  induction m with
  | nil => simp [setA, lookupA]
  | cons p rest ih =>
    obtain ⟨pk, pv⟩ := p
    by_cases hpk : pk = k
    · simp [setA, hpk, lookupA]
    · simp only [setA, if_neg hpk, List.map_cons, lookupA, ih]
      cases hlk : (lookupA rest k).isSome <;> simp [hpk, hlk]

theorem setA_keys_nodup {α : Type} (m : List (String × α)) (k : String) (v : α)
    (h : (m.map Prod.fst).Nodup) : ((setA m k v).map Prod.fst).Nodup := by
  rw [setA_keys]
  cases hlk : lookupA m k with
  | some w => simpa [hlk] using h
  | none =>
    have hnm : k ∉ m.map Prod.fst := lookupA_none_not_mem m k hlk
    simp [hlk, List.nodup_append, h, hnm]

theorem store_response_cats (st : Store) (cat q : String) (v : Value) :
    (store_response st cat q v).map Prod.fst =
      if (lookupA st cat).isSome then st.map Prod.fst else st.map Prod.fst ++ [cat] := by
  induction st with
  | nil => simp [store_response, lookupA]
  | cons p rest ih =>
    obtain ⟨c, m⟩ := p
    by_cases hc : c = cat
    · simp [store_response, hc, lookupA]
    · simp only [store_response, if_neg hc, List.map_cons, lookupA, ih]
      cases hlk : (lookupA rest cat).isSome <;> simp [hc, hlk]

theorem store_response_WF (st : Store) (cat q : String) (v : Value) :
    WF st → WF (store_response st cat q v) := by
  induction st with
  | nil =>
    intro _
    refine ⟨by simp [store_response], ?_⟩
    intro p hp
    simp [store_response] at hp
    subst hp
    simp
  | cons pr rest ih =>
    obtain ⟨c, m⟩ := pr
    intro h
    obtain ⟨hcats, hinner⟩ := h
    simp only [List.map_cons, List.nodup_cons] at hcats
    obtain ⟨hc_not, hrest⟩ := hcats
    have hWFrest : WF rest := ⟨hrest, fun p hp => hinner p (by simp [hp])⟩
    by_cases hc : c = cat
    · subst hc
      constructor
      · simp [store_response, hc_not, hrest]
      · intro p hp
        simp [store_response] at hp
        rcases hp with hp | hp
        · subst hp
          exact setA_keys_nodup m q v (hinner (c, m) (by simp))
        · exact hinner p (by simp [hp])
    · have ihr := ih hWFrest
      refine ⟨?_, ?_⟩
      · simp only [store_response, if_neg hc, List.map_cons, List.nodup_cons]
        refine ⟨?_, ihr.1⟩
        rw [store_response_cats]
        cases hlk : (lookupA rest cat).isSome
        · simp [hc_not, hc]
        · simp [hc_not, hc]
      · intro p hp
        simp only [store_response, if_neg hc, List.mem_cons] at hp
        rcases hp with hp | hp
        · subst hp
          exact hinner (c, m) (by simp)
        · exact ihr.2 p hp

theorem ensureCat_WF (st : Store) (c : String) (h : WF st) : WF (ensureCat st c) := by
  unfold ensureCat
  cases hc : lookupA st c with
  | some m => exact h
  | none =>
    obtain ⟨h1, h2⟩ := h
    refine ⟨?_, ?_⟩
    · have hnm : c ∉ st.map Prod.fst := lookupA_none_not_mem st c hc
      simp [List.nodup_append, h1, hnm]
    · intro p hp
      rcases List.mem_append.1 hp with hp | hp
      · exact h2 p hp
      · simp at hp
        subst hp
        simp

/-- Python `int(x)` on storable values: ints unchanged, floats truncated
toward zero, booleans 0/1; lists raise, and (per the header note) numeric
strings are out of modelled scope — both give `none`. -/
def pyInt : Value → Option Int
  | .i n => some n
  | .f x => some (x.num.tdiv (x.den : Int))
  | .b x => some (if x then 1 else 0)
  | .s _ => none
  | .l _ => none

/-- Python `float(x)` similarly (floats modelled as rationals). -/
def pyFloat : Value → Option Rat
  | .i n => some ((n : Rat))
  | .f x => some x
  | .b x => some (if x then 1 else 0)
  | .s _ => none
  | .l _ => none

/-- Python `list.index`: position of the first occurrence, `none` for the
`ValueError` case. -/
def pyIndex (xs : List String) (x : String) : Option Nat :=
  match xs with
  | [] => none
  | y :: ys => if y = x then some 0 else (pyIndex ys x).map (· + 1)

theorem pyIndex_get (xs : List String) (x : String) (i : Nat)
    (h : pyIndex xs x = some i) : xs.get? i = some x := by
  induction xs generalizing i with
  | nil => simp [pyIndex] at h
  | cons y ys ih =>
    by_cases hy : y = x
    · simp [pyIndex, hy] at h
      simp [← h, hy, List.get?]
    · simp [pyIndex, hy, Option.map_eq_some'] at h
      obtain ⟨j, hj, hji⟩ := h
      subst hji
      simpa [List.get?] using ih j hj

theorem pyIndex_of_mem (xs : List String) (x : String) (h : x ∈ xs) :
    ∃ i, pyIndex xs x = some i := by
  induction xs with
  | nil => simp at h
  | cons y ys ih =>
    by_cases hy : y = x
    · exact ⟨0, by simp [pyIndex, hy]⟩
    · rcases List.mem_cons.1 h with h' | h'
      · exact absurd h'.symm hy
      · obtain ⟨i, hi⟩ := ih h'
        exact ⟨i + 1, by simp [pyIndex, hy, hi]⟩

theorem pyIndex_eq_none (xs : List String) (x : String) (h : x ∉ xs) :
    pyIndex xs x = none := by
  induction xs with
  | nil => rfl
  | cons y ys ih =>
    simp only [List.mem_cons, not_or] at h
    simp [pyIndex, Ne.symm h.1, ih h.2]

theorem pyIndex_getD_get (opts : List String) (sel : String) (fb : Nat)
    (h : sel ∈ opts) : opts.get? ((pyIndex opts sel).getD fb) = some sel := by
  obtain ⟨i, hi⟩ := pyIndex_of_mem opts sel h
  rw [hi]
  exact pyIndex_get opts sel i hi

/-- The `try: idx = options.index(stored_default) except ValueError: idx = fb`
pattern that every enumerated question of main.py uses to turn its stored
default into a widget index.  All questions pass `fb = 0` except the step-4
packaging question, whose `except` branch sets the index to 1. -/
def choiceIdx (options : List String) (d : Value) (fb : Nat) : Nat :=
  match d with
  | .s t => (pyIndex options t).getD fb
  | _ => fb

/-- One input widget of main.py, carrying its storage key and the stock
default the source passes to `get_response`.  `choice` covers
`st.selectbox`, `st.radio` and the laundry-temperature `st.select_slider`,
which all share the `choiceIdx` default pattern; `intInput`/`floatInput`
are `st.number_input` with a `min_value`; `intSlider` is `st.slider` with
range bounds; `text` is `st.text_area`/`st.text_input` (stock default "");
`multi` is `st.multiselect` (stock default `[]`). -/
inductive Widget
  | choice (cat q : String) (options : List String) (stock : String) (fb : Nat)
  | checkbox (cat q : String) (stock : Bool)
  | intInput (cat q : String) (minVal : Int) (stock : Int)
  | floatInput (cat q : String) (minVal : Rat) (stock : Rat)
  | intSlider (cat q : String) (lo hi : Int) (stock : Int)
  | text (cat q : String)
  | multi (cat q : String) (options : List String)
deriving DecidableEq, Repr

/-- The (category, question) slot a widget reads its default from and
stores its value into. -/
def wKey : Widget → String × String
  | .choice cat q _ _ _ => (cat, q)
  | .checkbox cat q _ => (cat, q)
  | .intInput cat q _ _ => (cat, q)
  | .floatInput cat q _ _ => (cat, q)
  | .intSlider cat q _ _ _ => (cat, q)
  | .text cat q => (cat, q)
  | .multi cat q _ => (cat, q)

/-- Re-rendering one widget with no new user input: it shows its pre-filled
default, computed from the store exactly as the source computes it, and the
step immediately writes that value back through `store_response`.  `none`
models the exception Streamlit raises when the supplied default violates
the widget's preconditions (a number below the minimum or outside the
slider range, a multiselect default not contained in the options, a
wrongly-typed default). -/
def runWidget (w : Widget) (st : Store) : Option (Store × Value) :=
  match w with
  | .choice cat q options stock fb =>
    match options.get? (choiceIdx options (get_response st cat q (.s stock)) fb) with
    | some sel => some (store_response st cat q (.s sel), .s sel)
    | none => none
  | .checkbox cat q stock =>
    match get_response st cat q (.b stock) with
    | .b x => some (store_response st cat q (.b x), .b x)
    | _ => none
  | .intInput cat q minVal stock =>
    match pyInt (get_response st cat q (.i stock)) with
    | some n => if n < minVal then none else some (store_response st cat q (.i n), .i n)
    | none => none
  | .floatInput cat q minVal stock =>
    match pyFloat (get_response st cat q (.f stock)) with
    | some x => if x < minVal then none else some (store_response st cat q (.f x), .f x)
    | none => none
  | .intSlider cat q lo hi stock =>
    match pyInt (get_response st cat q (.i stock)) with
    | some n =>
      if n < lo ∨ hi < n then none else some (store_response st cat q (.i n), .i n)
    | none => none
  | .text cat q =>
    match get_response st cat q (.s "") with
    | .s t => some (store_response st cat q (.s t), .s t)
    | _ => none
  | .multi cat q options =>
    match get_response st cat q (.l []) with
    | .l xs =>
      if xs.all (fun x => options.contains x) then
        some (store_response st cat q (.l xs), .l xs)
      else none
    | _ => none

/-- A branch condition from the source.  The source tests the local
variable a widget just returned; since the step stores that value the
moment the widget runs, the test is read off the store.
`boughtSomething` is the step-4 test
`"None" not in purchased_items and purchased_items`. -/
inductive Cond
  | strIn (cat q : String) (vals : List String)
  | boolTrue (cat q : String)
  | listHas (cat q : String) (x : String)
  | boughtSomething (cat q : String)
deriving DecidableEq, Repr

def condKey : Cond → String × String
  | .strIn cat q _ => (cat, q)
  | .boolTrue cat q => (cat, q)
  | .listHas cat q _ => (cat, q)
  | .boughtSomething cat q => (cat, q)

def evalCond (c : Cond) (st : Store) : Bool :=
  match c with
  | .strIn cat q vals =>
    match getResponse? st cat q with
    | some (.s t) => vals.contains t
    | _ => false
  | .boolTrue cat q =>
    match getResponse? st cat q with
    | some (.b x) => x
    | _ => false
  | .listHas cat q x =>
    match getResponse? st cat q with
    | some (.l xs) => xs.contains x
    | _ => false
  | .boughtSomething cat q =>
    match getResponse? st cat q with
    | some (.l xs) => !xs.contains "None" && !xs.isEmpty
    | _ => false

/-- A step body: the sequence of category initialisations, widgets and
conditionals, transcribed top-to-bottom from the source. -/
inductive Form
  | nil
  | ensure (cat : String) (rest : Form)
  | widget (w : Widget) (rest : Form)
  | branch (c : Cond) (thn els rest : Form)
deriving Repr

/-- The questions one render displayed, in order, with the value each was
pre-filled with (and stored back). -/
abbrev Asked := List ((String × String) × Value)

/-- One no-new-input render of a step body: widgets echo and store their
defaults, conditions choose branches, `none` is a Streamlit exception. -/
def runForm : Form → Store → Option (Store × Asked)
  | .nil, st => some (st, [])
  | .ensure c f, st => runForm f (ensureCat st c)
  | .widget w f, st =>
    match runWidget w st with
    | none => none
    | some (st1, v) =>
      match runForm f st1 with
      | none => none
      | some (st2, a) => some (st2, (wKey w, v) :: a)
  | .branch c t e f, st =>
    match (if evalCond c st then runForm t st else runForm e st) with
    | none => none
    | some (st1, a1) =>
      match runForm f st1 with
      | none => none
      | some (st2, a2) => some (st2, a1 ++ a2)

def formWrites : Form → List (String × String)
  | .nil => []
  | .ensure _ f => formWrites f
  | .widget w f => wKey w :: formWrites f
  | .branch _ t e f => formWrites t ++ formWrites e ++ formWrites f

def formKeys : Form → List (String × String)
  | .nil => []
  | .ensure _ f => formKeys f
  | .widget w f => wKey w :: formKeys f
  | .branch c t e f => condKey c :: (formKeys t ++ formKeys e ++ formKeys f)

def formEnsures : Form → List String
  | .nil => []
  | .ensure c f => c :: formEnsures f
  | .widget _ f => formEnsures f
  | .branch _ t e f => formEnsures t ++ formEnsures e ++ formEnsures f

def noEnsure : Form → Bool
  | .nil => true
  | .ensure _ _ => false
  | .widget _ f => noEnsure f
  | .branch _ t e f => noEnsure t && noEnsure e && noEnsure f

def keyMem (k : String × String) : List (String × String) → Bool
  | [] => false
  | x :: xs => if x = k then true else keyMem k xs

def keysDisj (xs ys : List (String × String)) : Bool :=
  xs.all (fun k => !keyMem k ys)

/-- Structural sanity of a form, everything the replay argument needs: no
widget's slot is rewritten later in the form, no condition's slot is
written at or after the condition, branch bodies contain no category
initialisations, and branch-body slots are not rewritten afterwards. -/
def formOK : Form → Bool
  | .nil => true
  | .ensure _ f => formOK f
  | .widget w f => !keyMem (wKey w) (formWrites f) && formOK f
  | .branch c t e f =>
    !keyMem (condKey c) (formWrites t) && !keyMem (condKey c) (formWrites e) &&
    !keyMem (condKey c) (formWrites f) &&
    keysDisj (formKeys t) (formWrites f) && keysDisj (formKeys e) (formWrites f) &&
    noEnsure t && noEnsure e &&
    formOK t && formOK e && formOK f

theorem keyMem_iff (k : String × String) (xs : List (String × String)) :
    keyMem k xs = true ↔ k ∈ xs := by
  induction xs with
  | nil => simp [keyMem]
  | cons x rest ih =>
    by_cases hx : x = k
    · simp [keyMem, hx]
    · simp [keyMem, hx, ih, Ne.symm hx]

theorem keyMem_false (k : String × String) (xs : List (String × String))
    (h : keyMem k xs = false) : k ∉ xs := by
  intro hmem
  rw [(keyMem_iff k xs).2 hmem] at h
  exact absurd h (by simp)

theorem keysDisj_spec (xs ys : List (String × String)) (h : keysDisj xs ys = true) :
    ∀ k ∈ xs, k ∉ ys := by
  intro k hk
  have := (List.all_eq_true.1 h) k hk
  simp only [Bool.not_eq_true'] at this
  exact keyMem_false k ys this

theorem key_ne_cases {a b c d : String} (h : (a, b) ≠ (c, d)) : a ≠ c ∨ b ≠ d := by
  by_cases hac : a = c
  · right
    intro hbd
    exact h (by rw [hac, hbd])
  · left
    exact hac

theorem runWidget_store (w : Widget) (st st1 : Store) (v : Value)
    (h : runWidget w st = some (st1, v)) :
    st1 = store_response st (wKey w).1 (wKey w).2 v := by
  cases w with
  | choice cat q options stock fb =>
    simp only [runWidget] at h
    split at h
    · simp only [Option.some.injEq, Prod.mk.injEq] at h
      obtain ⟨h1, h2⟩ := h
      subst h1
      subst h2
      rfl
    · simp at h
  | checkbox cat q stock =>
    simp only [runWidget] at h
    split at h
    · simp only [Option.some.injEq, Prod.mk.injEq] at h
      obtain ⟨h1, h2⟩ := h
      subst h1
      subst h2
      rfl
    · simp at h
  | intInput cat q minVal stock =>
    simp only [runWidget] at h
    split at h
    · split at h
      · simp at h
      · simp only [Option.some.injEq, Prod.mk.injEq] at h
        obtain ⟨h1, h2⟩ := h
        subst h1
        subst h2
        rfl
    · simp at h
  | floatInput cat q minVal stock =>
    simp only [runWidget] at h
    split at h
    · split at h
      · simp at h
      · simp only [Option.some.injEq, Prod.mk.injEq] at h
        obtain ⟨h1, h2⟩ := h
        subst h1
        subst h2
        rfl
    · simp at h
  | intSlider cat q lo hi stock =>
    simp only [runWidget] at h
    split at h
    · split at h
      · simp at h
      · simp only [Option.some.injEq, Prod.mk.injEq] at h
        obtain ⟨h1, h2⟩ := h
        subst h1
        subst h2
        rfl
    · simp at h
  | text cat q =>
    simp only [runWidget] at h
    split at h
    · simp only [Option.some.injEq, Prod.mk.injEq] at h
      obtain ⟨h1, h2⟩ := h
      subst h1
      subst h2
      rfl
    · simp at h
  | multi cat q options =>
    simp only [runWidget] at h
    split at h
    · split at h
      · simp only [Option.some.injEq, Prod.mk.injEq] at h
        obtain ⟨h1, h2⟩ := h
        subst h1
        subst h2
        rfl
      · simp at h
    · simp at h

theorem runWidget_get_self (w : Widget) (st st1 : Store) (v : Value)
    (h : runWidget w st = some (st1, v)) :
    getResponse? st1 (wKey w).1 (wKey w).2 = some v := by
  rw [runWidget_store w st st1 v h]
  exact get_set_same st (wKey w).1 (wKey w).2 v

theorem runWidget_frame (w : Widget) (st st1 : Store) (v : Value)
    (h : runWidget w st = some (st1, v)) (cat q : String) (hne : (cat, q) ≠ wKey w) :
    getResponse? st1 cat q = getResponse? st cat q := by
  rw [runWidget_store w st st1 v h]
  exact get_set_ne st (wKey w).1 (wKey w).2 cat q v (key_ne_cases (Ne.symm hne))

theorem runWidget_hasCat (w : Widget) (st st1 : Store) (v : Value)
    (h : runWidget w st = some (st1, v)) (c : String) (hc : hasCat st c = true) :
    hasCat st1 c = true := by
  rw [runWidget_store w st st1 v h]
  exact hasCat_store_mono st (wKey w).1 (wKey w).2 v c hc

theorem runWidget_WF (w : Widget) (st st1 : Store) (v : Value)
    (h : runWidget w st = some (st1, v)) (hwf : WF st) : WF st1 := by
  rw [runWidget_store w st st1 v h]
  exact store_response_WF st (wKey w).1 (wKey w).2 v hwf

theorem runWidget_replay (w : Widget) (st st1 s2 : Store) (v : Value)
    (h : runWidget w st = some (st1, v))
    (hget : getResponse? s2 (wKey w).1 (wKey w).2 = some v) :
    runWidget w s2 = some (s2, v) := by
  cases w with
  | choice cat q options stock fb =>
    simp only [wKey] at hget
    simp only [runWidget] at h ⊢
    split at h
    · rename_i sel hsel
      simp only [Option.some.injEq, Prod.mk.injEq] at h
      obtain ⟨h1, h2⟩ := h
      subst h2
      have hmem : sel ∈ options := List.get?_mem hsel
      have hgr : get_response s2 cat q (.s stock) = .s sel := by
        simp [get_response, hget]
      rw [hgr]
      have hidx : choiceIdx options (Value.s sel) fb = (pyIndex options sel).getD fb := rfl
      rw [hidx, pyIndex_getD_get options sel fb hmem]
      simp [set_noop s2 cat q (Value.s sel) hget]
    · simp at h
  | checkbox cat q stock =>
    simp only [wKey] at hget
    simp only [runWidget] at h ⊢
    split at h
    · rename_i x hg
      simp only [Option.some.injEq, Prod.mk.injEq] at h
      obtain ⟨h1, h2⟩ := h
      subst h2
      have hgr : get_response s2 cat q (.b stock) = .b x := by
        simp [get_response, hget]
      rw [hgr]
      simp [set_noop s2 cat q (Value.b x) hget]
    · simp at h
  | intInput cat q minVal stock =>
    simp only [wKey] at hget
    simp only [runWidget] at h ⊢
    split at h
    · rename_i n hn
      split at h
      · simp at h
      · rename_i hlt
        simp only [Option.some.injEq, Prod.mk.injEq] at h
        obtain ⟨h1, h2⟩ := h
        subst h2
        have hgr : get_response s2 cat q (.i stock) = .i n := by
          simp [get_response, hget]
        rw [hgr]
        simp only [pyInt, if_neg hlt]
        simp [set_noop s2 cat q (Value.i n) hget]
    · simp at h
  | floatInput cat q minVal stock =>
    simp only [wKey] at hget
    simp only [runWidget] at h ⊢
    split at h
    · rename_i x hx
      split at h
      · simp at h
      · rename_i hlt
        simp only [Option.some.injEq, Prod.mk.injEq] at h
        obtain ⟨h1, h2⟩ := h
        subst h2
        have hgr : get_response s2 cat q (.f stock) = .f x := by
          simp [get_response, hget]
        rw [hgr]
        simp only [pyFloat, if_neg hlt]
        simp [set_noop s2 cat q (Value.f x) hget]
    · simp at h
  | intSlider cat q lo hi stock =>
    simp only [wKey] at hget
    simp only [runWidget] at h ⊢
    split at h
    · rename_i n hn
      split at h
      · simp at h
      · rename_i hlt
        simp only [Option.some.injEq, Prod.mk.injEq] at h
        obtain ⟨h1, h2⟩ := h
        subst h2
        have hgr : get_response s2 cat q (.i stock) = .i n := by
          simp [get_response, hget]
        rw [hgr]
        simp only [pyInt, if_neg hlt]
        simp [set_noop s2 cat q (Value.i n) hget]
    · simp at h
  | text cat q =>
    simp only [wKey] at hget
    simp only [runWidget] at h ⊢
    split at h
    · rename_i t hg
      simp only [Option.some.injEq, Prod.mk.injEq] at h
      obtain ⟨h1, h2⟩ := h
      subst h2
      have hgr : get_response s2 cat q (.s "") = .s t := by
        simp [get_response, hget]
      rw [hgr]
      simp [set_noop s2 cat q (Value.s t) hget]
    · simp at h
  | multi cat q options =>
    simp only [wKey] at hget
    simp only [runWidget] at h ⊢
    split at h
    · rename_i xs hg
      split at h
      · rename_i hall
        simp only [Option.some.injEq, Prod.mk.injEq] at h
        obtain ⟨h1, h2⟩ := h
        subst h2
        have hgr : get_response s2 cat q (.l []) = .l xs := by
          simp [get_response, hget]
        rw [hgr]
        simp only [if_pos hall]
        simp [set_noop s2 cat q (Value.l xs) hget]
      · simp at h
    · simp at h

theorem runForm_widget_inv (w : Widget) (f : Form) (st st' : Store) (a : Asked)
    (h : runForm (.widget w f) st = some (st', a)) :
    ∃ st1 v a2, runWidget w st = some (st1, v) ∧ runForm f st1 = some (st', a2) ∧
      a = (wKey w, v) :: a2 := by
  simp only [runForm] at h
  split at h
  · simp at h
  · rename_i st1 v hw
    split at h
    · simp at h
    · rename_i st2 a2 hf
      simp only [Option.some.injEq, Prod.mk.injEq] at h
      exact ⟨st1, v, a2, hw, h.1 ▸ hf, h.2.symm⟩

theorem runForm_branch_inv (c : Cond) (t e f : Form) (st st' : Store) (a : Asked)
    (h : runForm (.branch c t e f) st = some (st', a)) :
    ∃ st1 a1 a2, (if evalCond c st then runForm t st else runForm e st) = some (st1, a1) ∧
      runForm f st1 = some (st', a2) ∧ a = a1 ++ a2 := by
  simp only [runForm] at h
  split at h
  · simp at h
  · rename_i st1 a1 hbr
    split at h
    · simp at h
    · rename_i st2 a2 hf
      simp only [Option.some.injEq, Prod.mk.injEq] at h
      exact ⟨st1, a1, a2, hbr, h.1 ▸ hf, h.2.symm⟩

theorem formOK_widget_parts (w : Widget) (f : Form) (h : formOK (.widget w f) = true) :
    keyMem (wKey w) (formWrites f) = false ∧ formOK f = true := by
  simp only [formOK, Bool.and_eq_true, Bool.not_eq_true'] at h
  exact h

theorem formOK_branch_parts (c : Cond) (t e f : Form) (h : formOK (.branch c t e f) = true) :
    keyMem (condKey c) (formWrites t) = false ∧ keyMem (condKey c) (formWrites e) = false ∧
    keyMem (condKey c) (formWrites f) = false ∧
    keysDisj (formKeys t) (formWrites f) = true ∧ keysDisj (formKeys e) (formWrites f) = true ∧
    noEnsure t = true ∧ noEnsure e = true ∧
    formOK t = true ∧ formOK e = true ∧ formOK f = true := by
  simp only [formOK, Bool.and_eq_true, Bool.not_eq_true'] at h
  tauto

theorem noEnsure_ensures (F : Form) (h : noEnsure F = true) : formEnsures F = [] := by
  induction F with
  | nil => rfl
  | ensure c f ih => simp [noEnsure] at h
  | widget w f ih =>
    simp only [noEnsure] at h
    simp [formEnsures, ih h]
  | branch c t e f iht ihe ihf =>
    simp only [noEnsure, Bool.and_eq_true] at h
    obtain ⟨⟨h1, h2⟩, h3⟩ := h
    simp [formEnsures, iht h1, ihe h2, ihf h3]

theorem evalCond_congr (c : Cond) (a b : Store)
    (h : getResponse? a (condKey c).1 (condKey c).2 =
         getResponse? b (condKey c).1 (condKey c).2) :
    evalCond c a = evalCond c b := by
  cases c <;> (simp only [condKey] at h; simp only [evalCond]; rw [h])

theorem runForm_frame (F : Form) : ∀ (st st' : Store) (a : Asked),
    runForm F st = some (st', a) → ∀ cat q, (cat, q) ∉ formWrites F →
    getResponse? st' cat q = getResponse? st cat q := by
  induction F with
  | nil =>
    intro st st' a h cat q hmem
    simp only [runForm, Option.some.injEq, Prod.mk.injEq] at h
    rw [← h.1]
  | ensure c f ih =>
    intro st st' a h cat q hmem
    simp only [runForm] at h
    rw [ih (ensureCat st c) st' a h cat q (by simpa [formWrites] using hmem)]
    exact get_ensure st c cat q
  | widget w f ih =>
    intro st st' a h cat q hmem
    obtain ⟨st1, v, a2, hw, hf, ha⟩ := runForm_widget_inv w f st st' a h
    have hmem' : (cat, q) ∉ formWrites f := fun hx => hmem (by simp [formWrites, hx])
    have hne : (cat, q) ≠ wKey w := fun hx => hmem (by simp [formWrites, hx])
    rw [ih st1 st' a2 hf cat q hmem']
    exact runWidget_frame w st st1 v hw cat q hne
  | branch c t e f iht ihe ihf =>
    intro st st' a h cat q hmem
    have hmemt : (cat, q) ∉ formWrites t := fun hx => hmem (by simp [formWrites, hx])
    have hmeme : (cat, q) ∉ formWrites e := fun hx => hmem (by simp [formWrites, hx])
    have hmemf : (cat, q) ∉ formWrites f := fun hx => hmem (by simp [formWrites, hx])
    obtain ⟨st1, a1, a2, hbr, hf, ha⟩ := runForm_branch_inv c t e f st st' a h
    rw [ihf st1 st' a2 hf cat q hmemf]
    by_cases hb : evalCond c st = true
    · rw [if_pos hb] at hbr
      exact iht st st1 a1 hbr cat q hmemt
    · rw [if_neg hb] at hbr
      exact ihe st st1 a1 hbr cat q hmeme

theorem runForm_hasCat (F : Form) : ∀ st st' a, runForm F st = some (st', a) →
    ∀ c, hasCat st c = true → hasCat st' c = true := by
  induction F with
  | nil =>
    intro st st' a h c hc
    simp only [runForm, Option.some.injEq, Prod.mk.injEq] at h
    rw [← h.1]
    exact hc
  | ensure cc f ih =>
    intro st st' a h c hc
    simp only [runForm] at h
    exact ih _ _ _ h c (hasCat_ensure_mono st cc c hc)
  | widget w f ih =>
    intro st st' a h c hc
    obtain ⟨st1, v, a2, hw, hf, ha⟩ := runForm_widget_inv w f st st' a h
    exact ih st1 st' a2 hf c (runWidget_hasCat w st st1 v hw c hc)
  | branch cc t e f iht ihe ihf =>
    intro st st' a h c hc
    obtain ⟨st1, a1, a2, hbr, hf, ha⟩ := runForm_branch_inv cc t e f st st' a h
    by_cases hb : evalCond cc st = true
    · rw [if_pos hb] at hbr
      exact ihf st1 st' a2 hf c (iht st st1 a1 hbr c hc)
    · rw [if_neg hb] at hbr
      exact ihf st1 st' a2 hf c (ihe st st1 a1 hbr c hc)

theorem runForm_WF (F : Form) : ∀ st st' a, runForm F st = some (st', a) →
    WF st → WF st' := by
  induction F with
  | nil =>
    intro st st' a h hwf
    simp only [runForm, Option.some.injEq, Prod.mk.injEq] at h
    rw [← h.1]
    exact hwf
  | ensure cc f ih =>
    intro st st' a h hwf
    simp only [runForm] at h
    exact ih _ _ _ h (ensureCat_WF st cc hwf)
  | widget w f ih =>
    intro st st' a h hwf
    obtain ⟨st1, v, a2, hw, hf, ha⟩ := runForm_widget_inv w f st st' a h
    exact ih st1 st' a2 hf (runWidget_WF w st st1 v hw hwf)
  | branch cc t e f iht ihe ihf =>
    intro st st' a h hwf
    obtain ⟨st1, a1, a2, hbr, hf, ha⟩ := runForm_branch_inv cc t e f st st' a h
    by_cases hb : evalCond cc st = true
    · rw [if_pos hb] at hbr
      exact ihf st1 st' a2 hf (iht st st1 a1 hbr hwf)
    · rw [if_neg hb] at hbr
      exact ihf st1 st' a2 hf (ihe st st1 a1 hbr hwf)

theorem runForm_ensures (F : Form) : ∀ st st' a, runForm F st = some (st', a) →
    formOK F = true → ∀ c ∈ formEnsures F, hasCat st' c = true := by
  induction F with
  | nil =>
    intro st st' a h hok c hc
    simp [formEnsures] at hc
  | ensure cc f ih =>
    intro st st' a h hok c hc
    simp only [runForm] at h
    simp only [formEnsures, List.mem_cons] at hc
    rcases hc with hc | hc
    · subst hc
      exact runForm_hasCat f _ _ _ h c (hasCat_ensure_self st c)
    · exact ih _ _ _ h (by simpa [formOK] using hok) c hc
  | widget w f ih =>
    intro st st' a h hok c hc
    obtain ⟨st1, v, a2, hw, hf, ha⟩ := runForm_widget_inv w f st st' a h
    exact ih st1 st' a2 hf (formOK_widget_parts w f hok).2 c hc
  | branch cc t e f iht ihe ihf =>
    intro st st' a h hok c hc
    obtain ⟨p1, p2, p3, p4, p5, p6, p7, p8, p9, p10⟩ := formOK_branch_parts cc t e f hok
    obtain ⟨st1, a1, a2, hbr, hf, ha⟩ := runForm_branch_inv cc t e f st st' a h
    simp only [formEnsures, List.mem_append, noEnsure_ensures t p6, noEnsure_ensures e p7,
      List.not_mem_nil, false_or] at hc
    exact ihf st1 st' a2 hf p10 c hc

theorem runForm_asked_writes (F : Form) : ∀ st st' a, runForm F st = some (st', a) →
    ∀ kv ∈ a, kv.1 ∈ formWrites F := by
  induction F with
  | nil =>
    intro st st' a h kv hkv
    simp only [runForm, Option.some.injEq, Prod.mk.injEq] at h
    rw [← h.2] at hkv
    simp at hkv
  | ensure cc f ih =>
    intro st st' a h kv hkv
    simp only [runForm] at h
    simpa [formWrites] using ih _ _ _ h kv hkv
  | widget w f ih =>
    intro st st' a h kv hkv
    obtain ⟨st1, v, a2, hw, hf, ha⟩ := runForm_widget_inv w f st st' a h
    subst ha
    simp only [List.mem_cons] at hkv
    rcases hkv with hkv | hkv
    · simp [formWrites, hkv]
    · simp [formWrites, ih st1 st' a2 hf kv hkv]
  | branch cc t e f iht ihe ihf =>
    intro st st' a h kv hkv
    obtain ⟨st1, a1, a2, hbr, hf, ha⟩ := runForm_branch_inv cc t e f st st' a h
    subst ha
    simp only [List.mem_append] at hkv
    simp only [formWrites, List.mem_append]
    rcases hkv with hkv | hkv
    · by_cases hb : evalCond cc st = true
      · rw [if_pos hb] at hbr
        exact Or.inl (Or.inl (iht st st1 a1 hbr kv hkv))
      · rw [if_neg hb] at hbr
        exact Or.inl (Or.inr (ihe st st1 a1 hbr kv hkv))
    · exact Or.inr (ihf st1 st' a2 hf kv hkv)

theorem formWrites_sub_keys (F : Form) : ∀ k ∈ formWrites F, k ∈ formKeys F := by
  induction F with
  | nil => simp [formWrites]
  | ensure c f ih => simpa [formWrites, formKeys] using ih
  | widget w f ih =>
    intro k hk
    simp only [formWrites, List.mem_cons] at hk
    rcases hk with hk | hk
    · simp [formKeys, hk]
    · simp [formKeys, ih k hk]
  | branch c t e f iht ihe ihf =>
    intro k hk
    simp only [formWrites, List.mem_append] at hk
    simp only [formKeys, List.mem_cons, List.mem_append]
    rcases hk with (hk | hk) | hk
    · exact Or.inr (Or.inl (Or.inl (iht k hk)))
    · exact Or.inr (Or.inl (Or.inr (ihe k hk)))
    · exact Or.inr (Or.inr (ihf k hk))

theorem runForm_asked (F : Form) : ∀ st st' a, runForm F st = some (st', a) →
    formOK F = true → ∀ kv ∈ a, getResponse? st' kv.1.1 kv.1.2 = some kv.2 := by
  induction F with
  | nil =>
    intro st st' a h hok kv hkv
    simp only [runForm, Option.some.injEq, Prod.mk.injEq] at h
    rw [← h.2] at hkv
    simp at hkv
  | ensure cc f ih =>
    intro st st' a h hok kv hkv
    simp only [runForm] at h
    exact ih _ _ _ h (by simpa [formOK] using hok) kv hkv
  | widget w f ih =>
    intro st st' a h hok kv hkv
    obtain ⟨hkm, hokf⟩ := formOK_widget_parts w f hok
    obtain ⟨st1, v, a2, hw, hf, ha⟩ := runForm_widget_inv w f st st' a h
    subst ha
    simp only [List.mem_cons] at hkv
    rcases hkv with hkv | hkv
    · subst hkv
      rw [runForm_frame f st1 st' a2 hf (wKey w).1 (wKey w).2
        (by simpa using keyMem_false (wKey w) (formWrites f) hkm)]
      exact runWidget_get_self w st st1 v hw
    · exact ih st1 st' a2 hf hokf kv hkv
  | branch cc t e f iht ihe ihf =>
    intro st st' a h hok kv hkv
    obtain ⟨p1, p2, p3, p4, p5, p6, p7, p8, p9, p10⟩ := formOK_branch_parts cc t e f hok
    obtain ⟨st1, a1, a2, hbr, hf, ha⟩ := runForm_branch_inv cc t e f st st' a h
    subst ha
    simp only [List.mem_append] at hkv
    rcases hkv with hkv | hkv
    · by_cases hb : evalCond cc st = true
      · rw [if_pos hb] at hbr
        have hw1 : kv.1 ∈ formWrites t := runForm_asked_writes t st st1 a1 hbr kv hkv
        have hnotf : kv.1 ∉ formWrites f :=
          keysDisj_spec (formKeys t) (formWrites f) p4 kv.1 (formWrites_sub_keys t kv.1 hw1)
        rw [runForm_frame f st1 st' a2 hf kv.1.1 kv.1.2 (by simpa using hnotf)]
        exact iht st st1 a1 hbr p8 kv hkv
      · rw [if_neg hb] at hbr
        have hw1 : kv.1 ∈ formWrites e := runForm_asked_writes e st st1 a1 hbr kv hkv
        have hnotf : kv.1 ∉ formWrites f :=
          keysDisj_spec (formKeys e) (formWrites f) p5 kv.1 (formWrites_sub_keys e kv.1 hw1)
        rw [runForm_frame f st1 st' a2 hf kv.1.1 kv.1.2 (by simpa using hnotf)]
        exact ihe st st1 a1 hbr p9 kv hkv
    · exact ihf st1 st' a2 hf p10 kv hkv

theorem runForm_replay (F : Form) : ∀ st st' a, runForm F st = some (st', a) →
    formOK F = true →
    ∀ s2 : Store,
      (∀ k ∈ formKeys F, getResponse? s2 k.1 k.2 = getResponse? st' k.1 k.2) →
      (∀ c ∈ formEnsures F, hasCat s2 c = true) →
      runForm F s2 = some (s2, a) := by
  induction F with
  | nil =>
    intro st st' a h hok s2 hag hcats
    simp only [runForm, Option.some.injEq, Prod.mk.injEq] at h ⊢
    exact ⟨trivial, h.2⟩
  | ensure cc f ih =>
    intro st st' a h hok s2 hag hcats
    simp only [runForm] at h ⊢
    have hc2 : hasCat s2 cc = true := hcats cc (by simp [formEnsures])
    rw [ensure_noop s2 cc hc2]
    exact ih _ _ _ h (by simpa [formOK] using hok) s2
      (fun k hk => hag k (by simpa [formKeys] using hk))
      (fun c hc => hcats c (by simp [formEnsures, hc]))
  | widget w f ih =>
    intro st st' a h hok s2 hag hcats
    obtain ⟨hkm, hokf⟩ := formOK_widget_parts w f hok
    obtain ⟨st1, v, a2, hw, hf, ha⟩ := runForm_widget_inv w f st st' a h
    subst ha
    have hfin : getResponse? st' (wKey w).1 (wKey w).2 = some v := by
      rw [runForm_frame f st1 st' a2 hf (wKey w).1 (wKey w).2
        (by simpa using keyMem_false (wKey w) (formWrites f) hkm)]
      exact runWidget_get_self w st st1 v hw
    have hg2 : getResponse? s2 (wKey w).1 (wKey w).2 = some v := by
      rw [hag (wKey w) (by simp [formKeys]), hfin]
    have hw2 : runWidget w s2 = some (s2, v) := runWidget_replay w st st1 s2 v hw hg2
    have hf2 : runForm f s2 = some (s2, a2) :=
      ih st1 st' a2 hf hokf s2 (fun k hk => hag k (by simp [formKeys, hk])) hcats
    simp only [runForm, hw2, hf2]
  | branch cc t e f iht ihe ihf =>
    intro st st' a h hok s2 hag hcats
    obtain ⟨p1, p2, p3, p4, p5, p6, p7, p8, p9, p10⟩ := formOK_branch_parts cc t e f hok
    obtain ⟨st1, a1, a2, hbr, hf, ha⟩ := runForm_branch_inv cc t e f st st' a h
    subst ha
    have hckf : (condKey cc) ∉ formWrites f := keyMem_false _ _ p3
    have hckt : (condKey cc) ∉ formWrites t := keyMem_false _ _ p1
    have hcke : (condKey cc) ∉ formWrites e := keyMem_false _ _ p2
    have hagf : ∀ k ∈ formKeys f, getResponse? s2 k.1 k.2 = getResponse? st' k.1 k.2 :=
      fun k hk => hag k (by simp [formKeys, hk])
    have hcatsf : ∀ c ∈ formEnsures f, hasCat s2 c = true := fun c hc =>
      hcats c (by simp [formEnsures, hc])
    have hf2 : runForm f s2 = some (s2, a2) := ihf st1 st' a2 hf p10 s2 hagf hcatsf
    have hckst' : getResponse? st' (condKey cc).1 (condKey cc).2 =
        getResponse? st (condKey cc).1 (condKey cc).2 := by
      rw [runForm_frame f st1 st' a2 hf (condKey cc).1 (condKey cc).2 (by simpa using hckf)]
      by_cases hb : evalCond cc st = true
      · rw [if_pos hb] at hbr
        exact runForm_frame t st st1 a1 hbr (condKey cc).1 (condKey cc).2 (by simpa using hckt)
      · rw [if_neg hb] at hbr
        exact runForm_frame e st st1 a1 hbr (condKey cc).1 (condKey cc).2 (by simpa using hcke)
    have hcond : evalCond cc s2 = evalCond cc st := by
      apply evalCond_congr
      rw [hag (condKey cc) (by simp [formKeys]), hckst']
    by_cases hb : evalCond cc st = true
    · rw [if_pos hb] at hbr
      have hbody : runForm t s2 = some (s2, a1) := by
        apply iht st st1 a1 hbr p8 s2
        · intro k hk
          have hknotf : k ∉ formWrites f :=
            keysDisj_spec (formKeys t) (formWrites f) p4 k hk
          rw [hag k (by simp [formKeys, hk]),
            runForm_frame f st1 st' a2 hf k.1 k.2 (by simpa using hknotf)]
        · intro c hc
          rw [noEnsure_ensures t p6] at hc
          simp at hc
      simp only [runForm, hcond, hb, if_true, hbody, hf2]
    · rw [if_neg hb] at hbr
      have hb' : evalCond cc st = false := by
        cases hx : evalCond cc st
        · rfl
        · exact absurd hx hb
      have hbody : runForm e s2 = some (s2, a1) := by
        apply ihe st st1 a1 hbr p9 s2
        · intro k hk
          have hknotf : k ∉ formWrites f :=
            keysDisj_spec (formKeys e) (formWrites f) p5 k hk
          rw [hag k (by simp [formKeys, hk]),
            runForm_frame f st1 st' a2 hf k.1 k.2 (by simpa using hknotf)]
        · intro c hc
          rw [noEnsure_ensures e p7] at hc
          simp at hc
      simp only [runForm, hcond, hb', if_false, Bool.false_eq_true, hbody, hf2]

/-- Replaying a successful no-input render on its own output changes nothing
and displays the same questions with the same pre-filled values. -/
theorem runForm_idem (F : Form) (st st' : Store) (a : Asked)
    (h : runForm F st = some (st', a)) (hok : formOK F = true) :
    runForm F st' = some (st', a) :=
  runForm_replay F st st' a h hok st' (fun _ _ => rfl)
    (runForm_ensures F st st' a h hok)

def transport_options : List String :=
  ["Car", "Bus", "Train", "Bicycle", "Walking", "Motorcycle", "Airplane", "Other"]

def fuel_options : List String :=
  ["Petrol/Gasoline", "Diesel", "Electric", "Hybrid", "CNG/LPG"]

def diet_options : List String :=
  ["Omnivore (regular meat consumption)", "Flexitarian (occasional meat)",
   "Pescatarian (fish but no meat)", "Vegetarian (no meat or fish)",
   "Vegan (no animal products)"]

def lunch_source_options : List String :=
  ["Home-cooked", "Restaurant", "Office/School Cafeteria", "Delivery/Takeout", "Other"]

def dinner_source_options : List String :=
  ["Home-cooked", "Restaurant", "Delivery/Takeout", "Other"]

def home_type_options : List String :=
  ["Apartment", "Small house", "Medium house", "Large house", "Other"]

def electricity_options : List String :=
  ["Grid electricity", "Solar panels", "Wind power", "Other renewable", "Don\x27t know"]

def laundry_temp_options : List String := ["Cold", "Warm", "Hot"]

def purchased_options : List String :=
  ["Clothing", "Electronics", "Furniture", "Books/Media", "Toys", "Household items", "None"]

def items_new_options : List String :=
  ["All new", "Mixture of new and second-hand", "All second-hand"]

def packaging_options : List String :=
  ["Minimal/eco-friendly packaging", "Standard packaging", "Excessive packaging"]

def delivery_options : List String := ["Standard", "Express/Next day", "Same day"]

/-- The ten enumerated questions of the wizard (claim C5's list).  Every one
uses fallback index 0 in its `except ValueError` branch, except
`packagingWidget`, whose `except` branch sets `default_packaging_index = 1`
(main.py line 728). -/
def transportWidget : Widget :=
  .choice "transportation" "primary_mode" transport_options "Car" 0

def fuelWidget : Widget :=
  .choice "transportation" "fuel_type" fuel_options "Petrol/Gasoline" 0

def dietWidget : Widget :=
  .choice "diet" "diet_type" diet_options "Omnivore (regular meat consumption)" 0

def lunchSourceWidget : Widget :=
  .choice "food" "lunch_source" lunch_source_options "Home-cooked" 0

def dinnerSourceWidget : Widget :=
  .choice "food" "dinner_source" dinner_source_options "Home-cooked" 0

def homeTypeWidget : Widget :=
  .choice "home" "home_type" home_type_options "Apartment" 0

def laundryTempWidget : Widget :=
  .choice "water" "laundry_temperature" laundry_temp_options "Cold" 0

def itemsNewWidget : Widget :=
  .choice "consumption" "items_new_or_used" items_new_options "All new" 0

def packagingWidget : Widget :=
  .choice "consumption" "item_packaging" packaging_options "Standard packaging" 1

def deliveryWidget : Widget :=
  .choice "consumption" "delivery_option" delivery_options "Standard" 0

/-- Step 1 "Transportation" (main.py lines 231-305), transcribed
top-to-bottom: mode select; fuel type if mode is Car or Motorcycle;
distance; minutes on public transport if mode is Bus or Train; passenger
count if mode is Car. -/
def step1Form : Form :=
  .ensure "transportation"
  (.widget transportWidget
  (.branch (.strIn "transportation" "primary_mode" ["Car", "Motorcycle"])
    (.widget fuelWidget .nil) .nil
  (.widget (.floatInput "transportation" "distance_km" 0 0)
  (.branch (.strIn "transportation" "primary_mode" ["Bus", "Train"])
    (.widget (.intInput "transportation" "duration_minutes" 0 0) .nil) .nil
  (.branch (.strIn "transportation" "primary_mode" ["Car"])
    (.widget (.intInput "transportation" "passengers" 1 1) .nil) .nil
  .nil)))))

/-- Step 2 "Food & Diet" (main.py lines 314-534): diet type; breakfast
checkbox with description and dairy/meat sliders; lunch checkbox with
source, the Delivery/Takeout invoice deferral branch, else description and
meat slider; dinner likewise; snacks; food waste. -/
def step2Form : Form :=
  .ensure "food"
  (.ensure "diet"
  (.widget dietWidget
  (.widget (.checkbox "food" "had_breakfast" false)
  (.branch (.boolTrue "food" "had_breakfast")
    (.widget (.text "food" "breakfast_description")
     (.widget (.intSlider "food" "breakfast_dairy_level" 0 5 0)
      (.widget (.intSlider "food" "breakfast_meat_level" 0 5 0) .nil))) .nil
  (.widget (.checkbox "food" "had_lunch" false)
  (.branch (.boolTrue "food" "had_lunch")
    (.widget lunchSourceWidget
     (.branch (.strIn "food" "lunch_source" ["Delivery/Takeout"])
       (.widget (.checkbox "food" "has_lunch_invoice" false)
        (.branch (.boolTrue "food" "has_lunch_invoice")
          .nil
          (.widget (.text "food" "lunch_description")
           (.widget (.intSlider "food" "lunch_meat_level" 0 5 0) .nil))
          .nil))
       (.widget (.text "food" "lunch_description")
        (.widget (.intSlider "food" "lunch_meat_level" 0 5 0) .nil))
       .nil)) .nil
  (.widget (.checkbox "food" "had_dinner" false)
  (.branch (.boolTrue "food" "had_dinner")
    (.widget dinnerSourceWidget
     (.branch (.strIn "food" "dinner_source" ["Delivery/Takeout"])
       (.widget (.checkbox "food" "has_dinner_invoice" false)
        (.branch (.boolTrue "food" "has_dinner_invoice")
          .nil
          (.widget (.text "food" "dinner_description")
           (.widget (.intSlider "food" "dinner_meat_level" 0 5 0) .nil))
          .nil))
       (.widget (.text "food" "dinner_description")
        (.widget (.intSlider "food" "dinner_meat_level" 0 5 0) .nil))
       .nil)) .nil
  (.widget (.text "food" "snacks_description")
  (.widget (.intSlider "food" "food_waste_level" 0 5 0)
  .nil))))))))))

/-- Step 3 "Home Energy" (main.py lines 546-672): home type; household
size; electricity sources with provider name when Grid electricity is
selected; AC and heating hours; shower minutes; laundry checkbox with
loads and temperature; dishwasher checkbox. -/
def step3Form : Form :=
  .ensure "home"
  (.ensure "energy"
  (.ensure "water"
  (.widget homeTypeWidget
  (.widget (.intInput "home" "household_size" 1 1)
  (.widget (.multi "energy" "electricity_sources" electricity_options)
  (.branch (.listHas "energy" "electricity_sources" "Grid electricity")
    (.widget (.text "energy" "electricity_provider") .nil) .nil
  (.widget (.intSlider "energy" "ac_hours" 0 24 0)
  (.widget (.intSlider "energy" "heating_hours" 0 24 0)
  (.widget (.intInput "water" "shower_minutes" 0 0)
  (.widget (.checkbox "water" "did_laundry" false)
  (.branch (.boolTrue "water" "did_laundry")
    (.widget (.intInput "water" "laundry_loads" 1 1)
     (.widget laundryTempWidget .nil)) .nil
  (.widget (.checkbox "water" "used_dishwasher" false)
  .nil))))))))))))

/-- Step 4 "Consumer Goods" (main.py lines 684-792): purchased items with
new/used and packaging questions when something other than "None" was
selected; online-order checkbox with delivery speed; recycling percentage;
composting; single-use plastics. -/
def step4Form : Form :=
  .ensure "consumption"
  (.ensure "waste"
  (.widget (.multi "consumption" "purchased_items" purchased_options)
  (.branch (.boughtSomething "consumption" "purchased_items")
    (.widget itemsNewWidget
     (.widget packagingWidget .nil)) .nil
  (.widget (.checkbox "consumption" "ordered_online" false)
  (.branch (.boolTrue "consumption" "ordered_online")
    (.widget deliveryWidget .nil) .nil
  (.widget (.intSlider "waste" "recycling_percentage" 0 100 0)
  (.widget (.checkbox "waste" "does_compost" false)
  (.widget (.intSlider "waste" "single_use_plastic_count" 0 20 0)
  .nil))))))))

theorem step1Form_OK : formOK step1Form = true := by decide

theorem step2Form_OK : formOK step2Form = true := by decide

theorem step3Form_OK : formOK step3Form = true := by decide

theorem step4Form_OK : formOK step4Form = true := by decide

/-- Session state of main.py (lines 188-198): wizard cursor, answer store
and the two cached analysis results. -/
structure SessionState where
  current_step : Nat
  user_responses : Store
  food_order_analysis : Option String
  final_result : Option String
deriving DecidableEq, Repr

/-- The initial session state established at main.py lines 188-198. -/
def initState : SessionState :=
  { current_step := 1, user_responses := [], food_order_analysis := none,
    final_result := none }

/-- Python truthiness of a stored value, as
`if has_lunch_invoice or has_dinner_invoice:` evaluates it (step 5). -/
def truthy : Value → Bool
  | .b x => x
  | .i n => n != 0
  | .f x => x != 0
  | .s t => t != ""
  | .l xs => !xs.isEmpty

/-- The step-5 gate (main.py lines 808-812): either invoice flag stored
under the food category, defaulting to False. -/
def hasInvoiceFlag (st : Store) : Bool :=
  truthy (get_response st "food" "has_lunch_invoice" (.b false)) ||
  truthy (get_response st "food" "has_dinner_invoice" (.b false))

/-- The step-5 `st.file_uploader` accepted types (main.py line 818). -/
def step5_upload_types : List String := ["jpg", "jpeg", "png", "pdf"]

/-- Whether the first character list is a leading segment of the second. -/
def leadEq : List Char → List Char → Bool
  | [], _ => true
  | _ :: _, [] => false
  | a :: as, b :: bs => a == b && leadEq as bs

/-- Python `str.startswith`, used by the step-5 MIME check
`uploaded_file.type.startswith('image')` (main.py line 825). -/
def pyStartsWith (s pre : String) : Bool := leadEq pre.data s.data

/-- An uploaded file as step 5 sees it: Streamlit exposes its MIME type
(`uploaded_file.type`) and its bytes (abstracted to a string). -/
structure UploadedFile where
  mimeType : String
  content : String
deriving DecidableEq, Repr

/-- User interaction possible on step 5 during one render: an uploaded
file (or none) and whether "Analyze Invoice" was clicked. -/
structure Step5Input where
  uploaded : Option UploadedFile
  analyzeClicked : Bool
deriving DecidableEq, Repr

/-- What step 5 displayed: the upload control and its info line, the
nothing-to-upload notice, the non-image error, the encoding error, or the
analysis result. -/
structure Step5Display where
  uploadOffered : Bool
  nothingNotice : Bool
  pdfError : Bool
  encodeError : Bool
  analysisShown : Bool
deriving DecidableEq, Repr

structure Step5Out where
  state : SessionState
  calls : Nat
  disp : Step5Display
deriving DecidableEq, Repr

/-- Step 5 "Food Order Invoice" (main.py lines 804-861).  The external
invoice analysis is abstracted as `analyzeInv : base64 -> text` and
`encode_image` as `encode : bytes -> Option base64` (`none` is its error
path, which aborts only this analysis).  `calls` counts invocations of the
external invoice analysis during this render.  On success the result is
written to the `food_order_analysis` cache and to the answer store under
(food, invoice_analysis), exactly lines 845 and 855. -/
def renderStep5 (analyzeInv : String → String) (encode : String → Option String)
    (inp : Step5Input) (s : SessionState) : Step5Out :=
  if hasInvoiceFlag s.user_responses then
    match inp.uploaded with
    | none => ⟨s, 0, ⟨true, false, false, false, false⟩⟩
    | some fl =>
      if pyStartsWith fl.mimeType "image" then
        if inp.analyzeClicked then
          match encode fl.content with
          | some b64 =>
            ⟨{ s with
                food_order_analysis := some (analyzeInv b64),
                user_responses :=
                  store_response s.user_responses "food" "invoice_analysis"
                    (.s (analyzeInv b64)) },
              1, ⟨true, false, false, false, true⟩⟩
          | none => ⟨s, 0, ⟨true, false, false, true, false⟩⟩
        else ⟨s, 0, ⟨true, false, false, false, false⟩⟩
      else ⟨s, 0, ⟨true, false, true, false, false⟩⟩
  else ⟨s, 0, ⟨false, true, false, false, false⟩⟩

structure Step6Out where
  state : SessionState
  calls : Nat
  displayed : String
deriving DecidableEq, Repr

/-- The step-6 "Recalculate" button handler (main.py lines 877-878): it
only clears the overall-result cache. -/
def recalcEffect (clicked : Bool) (s : SessionState) : SessionState :=
  if clicked then { s with final_result := none } else s

/-- Step 6 "Results" (main.py lines 873-907): after the optional
recalculate, the external full analysis runs only when `final_result` is
absent (line 887), its result is cached (line 897), and the cached text is
displayed (line 907).  The external call
`analyze_with_gemma(st.session_state.user_responses)` is abstracted as
`compute`; `calls` counts its invocations in this render. -/
def renderStep6 (compute : Store → String) (recalcClicked : Bool)
    (s : SessionState) : Step6Out :=
  match (recalcEffect recalcClicked s).final_result with
  | some v => ⟨recalcEffect recalcClicked s, 0, v⟩
  | none =>
    ⟨{ recalcEffect recalcClicked s with
        final_result := some (compute (recalcEffect recalcClicked s).user_responses) },
      1, compute (recalcEffect recalcClicked s).user_responses⟩

/-- `n` successive re-renders of step 6 with no recalculate click, and the
total number of external calls they make. -/
def renderStep6Iter (compute : Store → String) : Nat → SessionState → SessionState × Nat
  | 0, s => (s, 0)
  | n + 1, s =>
    ((renderStep6Iter compute n (renderStep6 compute false s).state).1,
      (renderStep6 compute false s).calls +
        (renderStep6Iter compute n (renderStep6 compute false s).state).2)

/-- `next_step` (main.py lines 216-217): unconditional increment. -/
def next_step (n : Nat) : Nat := n + 1

/-- `prev_step` (main.py lines 219-221): decrement guarded by
`current_step > 1`, else a no-op. -/
def prev_step (n : Nat) : Nat := if n > 1 then n - 1 else n

inductive NavEvent
  | advance
  | retreat
deriving DecidableEq, Repr

/-- Raw navigation: the two handler functions applied in sequence. -/
def navApply (n : Nat) : NavEvent → Nat
  | .advance => next_step n
  | .retreat => prev_step n

def navRun (evs : List NavEvent) : Nat := evs.foldl navApply 1

/-- Button availability from the page structure: each of steps 1-5 renders
a Next button wired to `next_step` (main.py lines 310, 542, 680, 800,
869); each of steps 2-6 renders a Previous button wired to `prev_step`
(lines 539, 677, 797, 866, 920); step 6 renders no Next button; the
`if/elif` chain renders no buttons outside steps 1-6. -/
def hasNextButton (n : Nat) : Bool := decide (1 ≤ n ∧ n ≤ 5)

def hasPrevButton (n : Nat) : Bool := decide (2 ≤ n ∧ n ≤ 6)

/-- A navigation click as the page dispatches it: a handler only runs when
the step on screen offers its button. -/
def clickApply (n : Nat) : NavEvent → Nat
  | .advance => if hasNextButton n then next_step n else n
  | .retreat => if hasPrevButton n then prev_step n else n

def clickRun (evs : List NavEvent) : Nat := evs.foldl clickApply 1

/-- One re-render of the page with no new user input, at cursor position
`k`: steps 1-4 run their forms over the answer store; step 5 renders with
no upload and no click; step 6 renders with no recalculate click; any
other cursor value falls through the `if/elif` chain and renders nothing.
Returns the updated session state and the questions displayed with their
pre-filled values. -/
def renderNoInput (compute : Store → String) (analyzeInv : String → String)
    (encode : String → Option String) (k : Nat) (s : SessionState) :
    Option (SessionState × Asked) :=
  match k with
  | 1 => (runForm step1Form s.user_responses).map
      (fun p => ({ s with user_responses := p.1 }, p.2))
  | 2 => (runForm step2Form s.user_responses).map
      (fun p => ({ s with user_responses := p.1 }, p.2))
  | 3 => (runForm step3Form s.user_responses).map
      (fun p => ({ s with user_responses := p.1 }, p.2))
  | 4 => (runForm step4Form s.user_responses).map
      (fun p => ({ s with user_responses := p.1 }, p.2))
  | 5 => some ((renderStep5 analyzeInv encode ⟨none, false⟩ s).state, [])
  | 6 => some ((renderStep6 compute false s).state, [])
  | _ => some (s, [])

/-- A JSON value as `response.json()` yields it (numbers as integers, per
the header note). -/
inductive Json
  | null
  | bool (b : Bool)
  | num (n : Int)
  | str (s : String)
  | arr (xs : List Json)
  | obj (kvs : List (String × Json))

/-- Python `==` between a string literal and an arbitrary value, used by
list membership: false unless the element is that string. -/
def jsonIsStr (key : String) : Json → Bool
  | .str s => key == s
  | _ => false

/-- Naive substring scan, Python `needle in haystack` on strings. -/
def occursIn (needle : List Char) : List Char → Bool
  | [] => leadEq needle []
  | b :: bs => leadEq needle (b :: bs) || occursIn needle bs

/-- Python `key in x` as the envelope checks use it: dict key membership,
list element membership, substring test on strings, and a `TypeError`
(modelled as `Except.error`) on non-container values. -/
def pyContains (j : Json) (key : String) : Except String Bool :=
  match j with
  | .obj kvs => .ok (kvs.any (fun p => p.1 == key))
  | .arr xs => .ok (xs.any (jsonIsStr key))
  | .str s => .ok (occursIn key.data s.data)
  | .num _ => .error "argument of type \x27int\x27 is not iterable"
  | .bool _ => .error "argument of type \x27bool\x27 is not iterable"
  | .null => .error "argument of type \x27NoneType\x27 is not iterable"

/-- Python `len(x)`. -/
def pyLen (j : Json) : Except String Nat :=
  match j with
  | .obj kvs => .ok kvs.length
  | .arr xs => .ok xs.length
  | .str s => .ok s.length
  | _ => .error "object has no len()"

/-- Python `x[0]` (integer subscript). -/
def pyIndexNat (j : Json) (i : Nat) : Except String Json :=
  match j with
  | .arr xs =>
    match xs.get? i with
    | some x => .ok x
    | none => .error "list index out of range"
  | .str s =>
    match s.data.get? i with
    | some ch => .ok (.str (String.mk [ch]))
    | none => .error "string index out of range"
  | .obj _ => .error "KeyError: 0"
  | _ => .error "object is not subscriptable"

/-- Python `x['key']` (string subscript). -/
def pyIndexStr (j : Json) (key : String) : Except String Json :=
  match j with
  | .obj kvs =>
    match lookupA kvs key with
    | some v => .ok v
    | none => .error ("KeyError: " ++ key)
  | .arr _ => .error "list indices must be integers"
  | .str _ => .error "string indices must be integers"
  | _ => .error "object is not subscriptable"

/-- The `elif 'response' in ... elif 'text' in ...` chain (main.py lines
94-101): the first matching key's value is returned as-is; `none` means no
branch matched, so execution falls through to the `json.dumps` line. -/
def elifChain (rj : Json) : Except String (Option Json) := do
  if ← pyContains rj "response" then
    return some (← pyIndexStr rj "response")
  else if ← pyContains rj "result" then
    return some (← pyIndexStr rj "result")
  else if ← pyContains rj "output" then
    return some (← pyIndexStr rj "output")
  else if ← pyContains rj "text" then
    return some (← pyIndexStr rj "text")
  else
    return none

/-- The envelope-extraction chain (main.py lines 89-104, repeated verbatim
at 161-176): `some v` is a `return` of the matched value, `none` falls
through to the dumps fallback, and `Except.error` is a raised exception
(caught by the enclosing `try`). -/
def extract_content (rj : Json) : Except String (Option Json) := do
  let condChoices ←
    (do
      if ← pyContains rj "choices" then
        let choices ← pyIndexStr rj "choices"
        let n ← pyLen choices
        return decide (0 < n)
      else
        return false)
  if condChoices then
    let choices ← pyIndexStr rj "choices"
    let c0 ← pyIndexNat choices 0
    let cond1 ←
      (do
        if ← pyContains c0 "message" then
          pyContains (← pyIndexStr c0 "message") "content"
        else
          return false)
    if cond1 then
      return some (← pyIndexStr (← pyIndexStr c0 "message") "content")
    else if ← pyContains c0 "text" then
      return some (← pyIndexStr c0 "text")
    else
      return none
  else
    elifChain rj

def spaces (n : Nat) : String := String.mk (List.replicate n ' ')

mutual
/-- `json.dumps(x, indent=2)` (string escaping omitted, per the header). -/
def dumpsInd (ind : Nat) : Json → String
  | .null => "null"
  | .bool true => "true"
  | .bool false => "false"
  | .num n => toString n
  | .str s => "\"" ++ s ++ "\""
  | .arr [] => "[]"
  | .arr (x :: xs) =>
    "[\n" ++ dumpsArr (ind + 2) (x :: xs) ++ "\n" ++ spaces ind ++ "]"
  | .obj [] => "\x7b\x7d"
  | .obj (kv :: kvs) =>
    "\x7b\n" ++ dumpsObj (ind + 2) (kv :: kvs) ++ "\n" ++ spaces ind ++ "\x7d"

def dumpsArr (ind : Nat) : List Json → String
  | [] => ""
  | [x] => spaces ind ++ dumpsInd ind x
  | x :: y :: xs => spaces ind ++ dumpsInd ind x ++ ",\n" ++ dumpsArr ind (y :: xs)

def dumpsObj (ind : Nat) : List (String × Json) → String
  | [] => ""
  | [kv] => spaces ind ++ "\"" ++ kv.1 ++ "\": " ++ dumpsInd ind kv.2
  | kv :: kv2 :: kvs =>
    spaces ind ++ "\"" ++ kv.1 ++ "\": " ++ dumpsInd ind kv.2 ++ ",\n" ++
      dumpsObj ind (kv2 :: kvs)
end

def dumps (j : Json) : String := dumpsInd 0 j

/-- The outcome of `requests.post(...)` as the analysis functions see it:
either a response (status code, body text, and the result of
`response.json()` — `none` for a `json.JSONDecodeError`) or a raised
exception carrying `str(e)`. -/
inductive ApiOutcome
  | response (status : Nat) (text : String) (parsed : Option Json)
  | exn (msg : String)

/-- The response handling shared by `analyze_with_gemma` (main.py lines
62-112) and `analyze_food_invoice` (lines 132-184), whose handling code is
identical: a non-200 status becomes the templated error string; a 200 body
that fails to decode is returned verbatim as text; a matched envelope
value is returned as-is; an unmatched envelope falls back to
`json.dumps(response_json, indent=2)`; and any exception raised inside the
`try` (the request itself or the extraction) becomes
"An error occurred: ...".  The returned Python value is a `Json`; a
returned string is a `.str`. -/
def handleApiResponse (r : ApiOutcome) : Json :=
  match r with
  | .exn m => .str ("An error occurred: " ++ m)
  | .response status text parsed =>
    if status = 200 then
      match parsed with
      | none => .str text
      | some rj =>
        match extract_content rj with
        | .ok (some v) => v
        | .ok none => .str (dumps rj)
        | .error m => .str ("An error occurred: " ++ m)
    else
      .str ("Error " ++ toString status ++ ": The API request failed. Please try again later.")

/-- `analyze_with_gemma` (main.py lines 37-112), modelled at the boundary
of its external call. -/
def analyze_with_gemma (r : ApiOutcome) : Json := handleApiResponse r

/-- `analyze_food_invoice` (main.py lines 114-184): identical handling. -/
def analyze_food_invoice (r : ApiOutcome) : Json := handleApiResponse r

theorem clickApply_bounds (n : Nat) (ev : NavEvent) (h1 : 1 ≤ n) (h6 : n ≤ 6) :
    1 ≤ clickApply n ev ∧ clickApply n ev ≤ 6 := by
  cases ev with
  | advance =>
    simp only [clickApply]
    by_cases hc : hasNextButton n = true
    · rw [if_pos hc]
      simp only [hasNextButton, decide_eq_true_eq] at hc
      simp only [next_step]
      omega
    · rw [if_neg hc]
      omega
  | retreat =>
    simp only [clickApply]
    by_cases hc : hasPrevButton n = true
    · rw [if_pos hc]
      simp only [hasPrevButton, decide_eq_true_eq] at hc
      simp only [prev_step]
      split <;> omega
    · rw [if_neg hc]
      omega

/-- Claim C3: starting from the initial cursor, no sequence of retreat and
advance clicks takes `current_step` below 1, because `prev_step`
decrements exactly when `current_step > 1` and is a no-op at 1. -/
theorem c3_retreat_floor :
    (∀ evs : List NavEvent, 1 ≤ navRun evs)
    ∧ (∀ n : Nat, 1 < n → prev_step n = n - 1)
    ∧ prev_step 1 = 1 := by
  refine ⟨?_, ?_, rfl⟩
  · intro evs
    have key : ∀ (l : List NavEvent) (n : Nat), 1 ≤ n → 1 ≤ l.foldl navApply n := by
      intro l
      induction l with
      | nil => intro n h; simpa using h
      | cons ev rest ih =>
        intro n h
        apply ih
        cases ev with
        | advance => simp only [navApply, next_step]; omega
        | retreat => simp only [navApply, prev_step]; split <;> omega
    exact key evs 1 (by omega)
  · intro n h
    simp [prev_step, h]

/-- Witness for C3 at concrete inputs: two retreats from the initial
cursor stay at or above 1, and a retreat from step 3 lands on step 2. -/
theorem c3_retreat_floor_witness :
    1 ≤ navRun [NavEvent.retreat, NavEvent.retreat, NavEvent.advance, NavEvent.retreat]
    ∧ prev_step 3 = 2 :=
  ⟨c3_retreat_floor.1 _, c3_retreat_floor.2.1 3 (by omega)⟩

/-- Claim C4: under the page's button wiring the cursor stays within
[1, 6] for every click sequence from the initial state; step 6 offers no
Next button, so an advance click there is a no-op and step 7 is never
reached. -/
theorem c4_cursor_bounds :
    (∀ evs : List NavEvent, 1 ≤ clickRun evs ∧ clickRun evs ≤ 6)
    ∧ clickApply 6 NavEvent.advance = 6
    ∧ hasNextButton 6 = false := by
  refine ⟨?_, rfl, rfl⟩
  intro evs
  have key : ∀ (l : List NavEvent) (n : Nat), 1 ≤ n → n ≤ 6 →
      1 ≤ l.foldl clickApply n ∧ l.foldl clickApply n ≤ 6 := by
    intro l
    induction l with
    | nil => intro n h1 h6; simpa using ⟨h1, h6⟩
    | cons ev rest ih =>
      intro n h1 h6
      exact ih (clickApply n ev) (clickApply_bounds n ev h1 h6).1
        (clickApply_bounds n ev h1 h6).2
  exact key evs 1 (by omega) (by omega)

/-- Claim C7: with primary_mode = "Bicycle" stored, rendering the
transportation step asks exactly the mode and distance questions — neither
fuel type nor public-transport duration nor passenger count — and the
resulting store holds no value under any of those three keys. -/
theorem c7_bicycle_no_conditionals :
    runForm step1Form [("transportation", [("primary_mode", Value.s "Bicycle")])] =
      some ([("transportation",
               [("primary_mode", Value.s "Bicycle"), ("distance_km", Value.f 0)])],
            [(("transportation", "primary_mode"), Value.s "Bicycle"),
             (("transportation", "distance_km"), Value.f 0)])
    ∧ getResponse? [("transportation",
        [("primary_mode", Value.s "Bicycle"), ("distance_km", Value.f 0)])]
        "transportation" "fuel_type" = none
    ∧ getResponse? [("transportation",
        [("primary_mode", Value.s "Bicycle"), ("distance_km", Value.f 0)])]
        "transportation" "duration_minutes" = none
    ∧ getResponse? [("transportation",
        [("primary_mode", Value.s "Bicycle"), ("distance_km", Value.f 0)])]
        "transportation" "passengers" = none :=
  ⟨rfl, rfl, rfl, rfl⟩

/-- Claim C9: the Recalculate handler clears exactly the overall-result
cache — answer store, invoice-analysis cache and cursor are untouched —
and the render it triggers re-invokes the external analysis exactly once,
repopulating the slot from the unchanged answer store. -/
theorem c9_recalculate (compute : Store → String) (s : SessionState) :
    (recalcEffect true s).final_result = none
    ∧ (recalcEffect true s).user_responses = s.user_responses
    ∧ (recalcEffect true s).food_order_analysis = s.food_order_analysis
    ∧ (recalcEffect true s).current_step = s.current_step
    ∧ (renderStep6 compute true s).state.user_responses = s.user_responses
    ∧ (renderStep6 compute true s).state.food_order_analysis = s.food_order_analysis
    ∧ (renderStep6 compute true s).state.current_step = s.current_step
    ∧ (renderStep6 compute true s).calls = 1
    ∧ (renderStep6 compute true s).state.final_result =
        some (compute s.user_responses) := by
  refine ⟨rfl, rfl, rfl, rfl, ?_, ?_, ?_, ?_, ?_⟩ <;>
    simp [renderStep6, recalcEffect]

/-- A stored default that Python `options.index(default)` rejects with
`ValueError`: a string outside the option list, or any non-string. -/
def staleFor (opts : List String) : Value → Prop
  | .s t => t ∉ opts
  | _ => True

theorem choice_fallback (cat q : String) (opts : List String) (stock : String)
    (fb : Nat) (sel : String) (hfb : opts.get? fb = some sel) (st : Store) (v : Value)
    (hget : getResponse? st cat q = some v) (hstale : staleFor opts v) :
    runWidget (.choice cat q opts stock fb) st =
      some (store_response st cat q (.s sel), .s sel) := by
  simp only [runWidget]
  have hd : get_response st cat q (.s stock) = v := by simp [get_response, hget]
  rw [hd]
  have hidx : choiceIdx opts v fb = fb := by
    cases v with
    | s t =>
      simp only [staleFor] at hstale
      simp [choiceIdx, pyIndex_eq_none opts t hstale]
    | b x => rfl
    | i n => rfl
    | f x => rfl
    | l xs => rfl
  rw [hidx, hfb]

/-- Claim C5 (amended): when the stored default of an enumerated question
is not a member of its current option list, the question renders with a
fixed fallback option selected instead of failing — the first option for
transport mode, fuel type, diet type, both meal sources, home type,
laundry temperature, new/used and delivery option; but the packaging
question falls back to its second option, "Standard packaging" (its
`except ValueError` branch sets index 1, main.py line 728). -/
theorem c5_enum_fallback :
    (∀ st v, getResponse? st "transportation" "primary_mode" = some v →
      staleFor transport_options v →
      (runWidget transportWidget st).map Prod.snd = some (Value.s "Car"))
    ∧ (∀ st v, getResponse? st "transportation" "fuel_type" = some v →
      staleFor fuel_options v →
      (runWidget fuelWidget st).map Prod.snd = some (Value.s "Petrol/Gasoline"))
    ∧ (∀ st v, getResponse? st "diet" "diet_type" = some v →
      staleFor diet_options v →
      (runWidget dietWidget st).map Prod.snd =
        some (Value.s "Omnivore (regular meat consumption)"))
    ∧ (∀ st v, getResponse? st "food" "lunch_source" = some v →
      staleFor lunch_source_options v →
      (runWidget lunchSourceWidget st).map Prod.snd = some (Value.s "Home-cooked"))
    ∧ (∀ st v, getResponse? st "food" "dinner_source" = some v →
      staleFor dinner_source_options v →
      (runWidget dinnerSourceWidget st).map Prod.snd = some (Value.s "Home-cooked"))
    ∧ (∀ st v, getResponse? st "home" "home_type" = some v →
      staleFor home_type_options v →
      (runWidget homeTypeWidget st).map Prod.snd = some (Value.s "Apartment"))
    ∧ (∀ st v, getResponse? st "water" "laundry_temperature" = some v →
      staleFor laundry_temp_options v →
      (runWidget laundryTempWidget st).map Prod.snd = some (Value.s "Cold"))
    ∧ (∀ st v, getResponse? st "consumption" "items_new_or_used" = some v →
      staleFor items_new_options v →
      (runWidget itemsNewWidget st).map Prod.snd = some (Value.s "All new"))
    ∧ (∀ st v, getResponse? st "consumption" "delivery_option" = some v →
      staleFor delivery_options v →
      (runWidget deliveryWidget st).map Prod.snd = some (Value.s "Standard"))
    ∧ (∀ st v, getResponse? st "consumption" "item_packaging" = some v →
      staleFor packaging_options v →
      (runWidget packagingWidget st).map Prod.snd =
        some (Value.s "Standard packaging"))
    ∧ packaging_options.get? 1 = some "Standard packaging"
    ∧ packaging_options.get? 0 = some "Minimal/eco-friendly packaging" := by
  refine ⟨?_, ?_, ?_, ?_, ?_, ?_, ?_, ?_, ?_, ?_, rfl, rfl⟩ <;>
    (intro st v hget hstale)
  · simp only [transportWidget]
    rw [choice_fallback "transportation" "primary_mode" transport_options "Car" 0
      "Car" rfl st v hget hstale]
    rfl
  · simp only [fuelWidget]
    rw [choice_fallback "transportation" "fuel_type" fuel_options "Petrol/Gasoline" 0
      "Petrol/Gasoline" rfl st v hget hstale]
    rfl
  · simp only [dietWidget]
    rw [choice_fallback "diet" "diet_type" diet_options
      "Omnivore (regular meat consumption)" 0 "Omnivore (regular meat consumption)"
      rfl st v hget hstale]
    rfl
  · simp only [lunchSourceWidget]
    rw [choice_fallback "food" "lunch_source" lunch_source_options "Home-cooked" 0
      "Home-cooked" rfl st v hget hstale]
    rfl
  · simp only [dinnerSourceWidget]
    rw [choice_fallback "food" "dinner_source" dinner_source_options "Home-cooked" 0
      "Home-cooked" rfl st v hget hstale]
    rfl
  · simp only [homeTypeWidget]
    rw [choice_fallback "home" "home_type" home_type_options "Apartment" 0
      "Apartment" rfl st v hget hstale]
    rfl
  · simp only [laundryTempWidget]
    rw [choice_fallback "water" "laundry_temperature" laundry_temp_options "Cold" 0
      "Cold" rfl st v hget hstale]
    rfl
  · simp only [itemsNewWidget]
    rw [choice_fallback "consumption" "items_new_or_used" items_new_options "All new" 0
      "All new" rfl st v hget hstale]
    rfl
  · simp only [deliveryWidget]
    rw [choice_fallback "consumption" "delivery_option" delivery_options "Standard" 0
      "Standard" rfl st v hget hstale]
    rfl
  · simp only [packagingWidget]
    rw [choice_fallback "consumption" "item_packaging" packaging_options
      "Standard packaging" 1 "Standard packaging" rfl st v hget hstale]
    rfl

/-- Claim C5 counterexample: the packaging question with the stale stored
default "Bubble-wrap" renders with "Standard packaging" — the second
option — selected, not the first defined option as the claim states. -/
theorem c5_counterexample :
    (runWidget packagingWidget
        [("consumption", [("item_packaging", Value.s "Bubble-wrap")])]).map Prod.snd =
      some (Value.s "Standard packaging")
    ∧ packaging_options.get? 0 = some "Minimal/eco-friendly packaging"
    ∧ Value.s "Standard packaging" ≠ Value.s "Minimal/eco-friendly packaging" :=
  ⟨rfl, rfl, by decide⟩

/-- Witness for C5 at a concrete input: the spec's own example, a stale
stored diet "Carnivore-extreme", renders with the first diet option. -/
theorem c5_enum_fallback_witness :
    staleFor diet_options (Value.s "Carnivore-extreme")
    ∧ (runWidget dietWidget
        [("diet", [("diet_type", Value.s "Carnivore-extreme")])]).map Prod.snd =
      some (Value.s "Omnivore (regular meat consumption)") :=
  ⟨by simp only [staleFor]; decide, c5_enum_fallback.2.2.1
      [("diet", [("diet_type", Value.s "Carnivore-extreme")])]
      (Value.s "Carnivore-extreme") rfl (by simp only [staleFor]; decide)⟩

/-- A slot that, when populated, holds a boolean — as every checkbox slot
of the wizard does. -/
def boolOrAbsent (st : Store) (cat q : String) : Prop :=
  ∀ v, getResponse? st cat q = some v → ∃ x, v = Value.b x

theorem truthyFlag_iff (st : Store) (cat q : String) (hb : boolOrAbsent st cat q) :
    truthy (get_response st cat q (Value.b false)) = true ↔
      getResponse? st cat q = some (Value.b true) := by
  cases hv : getResponse? st cat q with
  | none => simp [get_response, hv, truthy]
  | some v =>
    obtain ⟨x, hx⟩ := hb v hv
    subst hx
    cases x <;> simp [get_response, hv, truthy]

theorem hasInvoiceFlag_iff (st : Store)
    (hl : boolOrAbsent st "food" "has_lunch_invoice")
    (hd : boolOrAbsent st "food" "has_dinner_invoice") :
    hasInvoiceFlag st = true ↔
      (getResponse? st "food" "has_lunch_invoice" = some (Value.b true) ∨
       getResponse? st "food" "has_dinner_invoice" = some (Value.b true)) := by
  simp only [hasInvoiceFlag, Bool.or_eq_true]
  rw [truthyFlag_iff st "food" "has_lunch_invoice" hl,
    truthyFlag_iff st "food" "has_dinner_invoice" hd]

theorem renderStep5_disp (analyzeInv : String → String) (encode : String → Option String)
    (inp : Step5Input) (s : SessionState) :
    (renderStep5 analyzeInv encode inp s).disp.uploadOffered =
      hasInvoiceFlag s.user_responses
    ∧ (renderStep5 analyzeInv encode inp s).disp.nothingNotice =
      !hasInvoiceFlag s.user_responses := by
  unfold renderStep5
  by_cases hflag : hasInvoiceFlag s.user_responses = true
  · rw [if_pos hflag]
    cases hup : inp.uploaded with
    | none => simp [hflag]
    | some fl =>
      by_cases him : pyStartsWith fl.mimeType "image" = true
      · by_cases hcl : inp.analyzeClicked = true
        · cases henc : encode fl.content with
          | some b64 => simp [him, hcl, henc, hflag]
          | none => simp [him, hcl, henc, hflag]
        · simp [him, hcl, hflag]
      · simp [him, hflag]
  · rw [if_neg hflag]
    simp only [Bool.not_eq_true] at hflag
    simp [hflag]

/-- Claim C6: step 5 offers the upload control exactly when one of the two
invoice flags is stored as True under the food category, and shows the
nothing-to-upload notice exactly otherwise (given that the two flag slots
hold booleans when populated, as the step-2 checkboxes guarantee). -/
theorem c6_invoice_gate (analyzeInv : String → String) (encode : String → Option String)
    (inp : Step5Input) (s : SessionState)
    (hl : boolOrAbsent s.user_responses "food" "has_lunch_invoice")
    (hd : boolOrAbsent s.user_responses "food" "has_dinner_invoice") :
    ((renderStep5 analyzeInv encode inp s).disp.uploadOffered = true ↔
      (getResponse? s.user_responses "food" "has_lunch_invoice" = some (Value.b true) ∨
       getResponse? s.user_responses "food" "has_dinner_invoice" = some (Value.b true)))
    ∧ (renderStep5 analyzeInv encode inp s).disp.nothingNotice =
        !(renderStep5 analyzeInv encode inp s).disp.uploadOffered := by
  obtain ⟨h1, h2⟩ := renderStep5_disp analyzeInv encode inp s
  constructor
  · rw [h1]
    exact hasInvoiceFlag_iff s.user_responses hl hd
  · rw [h1, h2]

def c6WitnessState : SessionState :=
  { current_step := 5,
    user_responses := [("food", [("has_lunch_invoice", Value.b true)])],
    food_order_analysis := none, final_result := none }

/-- Witness for C6 at the spec's own input: with only the lunch-invoice
flag set, upload is offered and the nothing-to-upload notice is absent. -/
theorem c6_invoice_gate_witness :
    (renderStep5 (fun _ => "") (fun _ => none) ⟨none, false⟩
        c6WitnessState).disp.uploadOffered = true
    ∧ (renderStep5 (fun _ => "") (fun _ => none) ⟨none, false⟩
        c6WitnessState).disp.nothingNotice = false := by
  have h := c6_invoice_gate (fun _ => "") (fun _ => none) ⟨none, false⟩ c6WitnessState
    (fun v hv => ⟨true, by simp [c6WitnessState, getResponse?, lookupA] at hv; exact hv.symm⟩)
    (fun v hv => by simp [c6WitnessState, getResponse?, lookupA] at hv)
  have hup : (renderStep5 (fun _ => "") (fun _ => none) ⟨none, false⟩
      c6WitnessState).disp.uploadOffered = true :=
    h.1.2 (Or.inl (by rfl))
  refine ⟨hup, ?_⟩
  rw [h.2, hup]
  rfl

def c10WitnessState : SessionState :=
  { current_step := 5,
    user_responses := [("food", [("has_dinner_invoice", Value.b true)])],
    food_order_analysis := none, final_result := none }

/-- Claim C10: pdf is among the accepted upload types, yet the analysis
path runs only for files whose MIME type starts with "image": a non-image
upload (a PDF reports application/pdf) only produces the error message —
no external call, and the session state, invoice-analysis cache and
answer store included, is unchanged. -/
theorem c10_pdf_rejected (analyzeInv : String → String) (encode : String → Option String)
    (clicked : Bool) (s : SessionState) (fl : UploadedFile)
    (hflag : hasInvoiceFlag s.user_responses = true)
    (him : pyStartsWith fl.mimeType "image" = false) :
    "pdf" ∈ step5_upload_types
    ∧ renderStep5 analyzeInv encode ⟨some fl, clicked⟩ s =
        ⟨s, 0, ⟨true, false, true, false, false⟩⟩ := by
  refine ⟨by simp [step5_upload_types], ?_⟩
  unfold renderStep5
  rw [if_pos hflag]
  simp [him]

/-- Witness for C10 at a concrete input: an uploaded application/pdf file
with the Analyze button clicked changes nothing and makes no call. -/
theorem c10_pdf_rejected_witness :
    hasInvoiceFlag c10WitnessState.user_responses = true
    ∧ pyStartsWith "application/pdf" "image" = false
    ∧ renderStep5 (fun _ => "") (fun _ => none)
        ⟨some ⟨"application/pdf", "receiptbytes"⟩, true⟩ c10WitnessState =
        ⟨c10WitnessState, 0, ⟨true, false, true, false, false⟩⟩ :=
  ⟨rfl, rfl, (c10_pdf_rejected (fun _ => "") (fun _ => none) true c10WitnessState
      ⟨"application/pdf", "receiptbytes"⟩ rfl rfl).2⟩

theorem renderStep5_no_click (analyzeInv : String → String)
    (encode : String → Option String) (inp : Step5Input) (s : SessionState)
    (h : inp.analyzeClicked = false) :
    (renderStep5 analyzeInv encode inp s).state = s ∧
    (renderStep5 analyzeInv encode inp s).calls = 0 := by
  unfold renderStep5
  by_cases hflag : hasInvoiceFlag s.user_responses = true
  · rw [if_pos hflag]
    cases hup : inp.uploaded with
    | none => exact ⟨rfl, rfl⟩
    | some fl =>
      by_cases him : pyStartsWith fl.mimeType "image" = true
      · simp [him, h]
      · simp [him]
  · rw [if_neg hflag]
    exact ⟨rfl, rfl⟩

theorem renderStep6Iter_cached (compute : Store → String) :
    ∀ (n : Nat) (s : SessionState) (v : String), s.final_result = some v →
    renderStep6Iter compute n s = (s, 0) := by
  intro n
  induction n with
  | zero => intro s v h; rfl
  | succ m ih =>
    intro s v h
    have hr : renderStep6 compute false s = ⟨s, 0, v⟩ := by
      unfold renderStep6 recalcEffect
      simp [h]
    simp only [renderStep6Iter, hr]
    rw [ih s v h]
    simp

/-- Claim C1 (amended): the overall-analysis slot is genuinely memoised:
a populated slot is displayed with no external call, an absent slot
triggers exactly one call whose result is stored and displayed, and any
number of re-renders makes at most one call in total.  The
invoice-analysis slot, however, is not guarded by its cache: re-rendering
step 5 without an Analyze click never calls out regardless of the slot,
and an explicit Analyze click on an uploaded image calls out exactly once
and overwrites the slot whatever it previously held. -/
theorem c1_cache_slots (compute : Store → String) (analyzeInv : String → String)
    (encode : String → Option String) :
    (∀ s v, s.final_result = some v →
      renderStep6 compute false s = ⟨s, 0, v⟩)
    ∧ (∀ s, s.final_result = none →
      renderStep6 compute false s =
        ⟨{ s with final_result := some (compute s.user_responses) }, 1,
          compute s.user_responses⟩)
    ∧ (∀ n s, (renderStep6Iter compute n s).2 ≤ 1)
    ∧ (∀ s inp, inp.analyzeClicked = false →
        (renderStep5 analyzeInv encode inp s).state = s ∧
        (renderStep5 analyzeInv encode inp s).calls = 0)
    ∧ (∀ s fl b64, hasInvoiceFlag s.user_responses = true →
        pyStartsWith fl.mimeType "image" = true → encode fl.content = some b64 →
        renderStep5 analyzeInv encode ⟨some fl, true⟩ s =
          ⟨{ s with
              food_order_analysis := some (analyzeInv b64),
              user_responses := store_response s.user_responses "food"
                "invoice_analysis" (.s (analyzeInv b64)) },
            1, ⟨true, false, false, false, true⟩⟩) := by
  refine ⟨?_, ?_, ?_, ?_, ?_⟩
  · intro s v h
    unfold renderStep6 recalcEffect
    simp [h]
  · intro s h
    unfold renderStep6 recalcEffect
    simp [h]
  · intro n s
    cases hfr : s.final_result with
    | some v =>
      rw [renderStep6Iter_cached compute n s v hfr]
      simp
    | none =>
      cases n with
      | zero => simp [renderStep6Iter]
      | succ m =>
        have hr : renderStep6 compute false s =
            ⟨{ s with final_result := some (compute s.user_responses) }, 1,
              compute s.user_responses⟩ := by
          unfold renderStep6 recalcEffect
          simp [hfr]
        simp only [renderStep6Iter, hr]
        rw [renderStep6Iter_cached compute m
          { s with final_result := some (compute s.user_responses) }
          (compute s.user_responses) rfl]
        simp
  · intro s inp
    exact renderStep5_no_click analyzeInv encode inp s
  · intro s fl b64 hflag him henc
    unfold renderStep5
    rw [if_pos hflag]
    simp [him, henc]

def c1CexState : SessionState :=
  { current_step := 5,
    user_responses := [("food", [("has_lunch_invoice", Value.b true)])],
    food_order_analysis := none, final_result := none }

/-- Claim C1 counterexample: with the invoice-analysis slot absent, a
render of the invoice step performs zero external calls and leaves the
slot absent — not the "invoked exactly once, result stored and returned"
the claim requires of an absent cache slot. -/
theorem c1_counterexample :
    c1CexState.food_order_analysis = none
    ∧ (renderStep5 (fun _ => "A") (fun b => some b) ⟨none, false⟩ c1CexState).calls = 0
    ∧ (renderStep5 (fun _ => "A") (fun b => some b) ⟨none, false⟩
        c1CexState).state = c1CexState :=
  ⟨rfl, rfl, rfl⟩

def c1WitnessState : SessionState :=
  { current_step := 6, user_responses := [], food_order_analysis := none,
    final_result := some "cached report" }

/-- Witness for C1 at a concrete input: a populated overall-result slot is
returned as-is with zero external calls. -/
theorem c1_cache_slots_witness :
    c1WitnessState.final_result = some "cached report"
    ∧ renderStep6 (fun _ => "fresh") false c1WitnessState =
        ⟨c1WitnessState, 0, "cached report"⟩ :=
  ⟨rfl, (c1_cache_slots (fun _ => "fresh") (fun _ => "") (fun _ => none)).1
      c1WitnessState "cached report" rfl⟩

/-- Claim C8 (amended): both analysis functions recover every external
failure into a display string — a non-success status yields the templated
error string carrying the status code, an exception (network, timeout, or
one raised during extraction) yields "An error occurred: ...", an
undecodable 200 body is returned verbatim as text, and a 200 JSON body
matching no known envelope is returned pretty-printed; when a known
envelope matches, the value found there is returned as-is, which is a
string exactly when the provider put text there (and in general need not
be a string — see the counterexample). -/
theorem c8_error_stringification :
    (∀ (status : Nat) (text : String) (parsed : Option Json), status ≠ 200 →
      analyze_with_gemma (.response status text parsed) =
        .str ("Error " ++ toString status ++
          ": The API request failed. Please try again later.") ∧
      analyze_food_invoice (.response status text parsed) =
        .str ("Error " ++ toString status ++
          ": The API request failed. Please try again later."))
    ∧ (∀ msg, analyze_with_gemma (.exn msg) = .str ("An error occurred: " ++ msg) ∧
        analyze_food_invoice (.exn msg) = .str ("An error occurred: " ++ msg))
    ∧ (∀ text, analyze_with_gemma (.response 200 text none) = .str text ∧
        analyze_food_invoice (.response 200 text none) = .str text)
    ∧ (∀ text rj, extract_content rj = .ok none →
        analyze_with_gemma (.response 200 text (some rj)) = .str (dumps rj) ∧
        analyze_food_invoice (.response 200 text (some rj)) = .str (dumps rj))
    ∧ (∀ text rj s, extract_content rj = .ok (some (.str s)) →
        analyze_with_gemma (.response 200 text (some rj)) = .str s ∧
        analyze_food_invoice (.response 200 text (some rj)) = .str s)
    ∧ (∀ text rj m, extract_content rj = .error m →
        analyze_with_gemma (.response 200 text (some rj)) =
          .str ("An error occurred: " ++ m) ∧
        analyze_food_invoice (.response 200 text (some rj)) =
          .str ("An error occurred: " ++ m)) := by
  refine ⟨?_, ?_, ?_, ?_, ?_, ?_⟩
  · intro status text parsed h
    constructor <;>
      simp [analyze_with_gemma, analyze_food_invoice, handleApiResponse, h]
  · intro msg
    exact ⟨rfl, rfl⟩
  · intro text
    exact ⟨rfl, rfl⟩
  · intro text rj h
    constructor <;>
      simp [analyze_with_gemma, analyze_food_invoice, handleApiResponse, h]
  · intro text rj s h
    constructor <;>
      simp [analyze_with_gemma, analyze_food_invoice, handleApiResponse, h]
  · intro text rj m h
    constructor <;>
      simp [analyze_with_gemma, analyze_food_invoice, handleApiResponse, h]

/-- Does the function return a Python string? -/
def jsonIsString : Json → Bool
  | .str _ => true
  | _ => false

/-- Claim C8 counterexample: a 200 response whose JSON is `{"response": 5}`
matches the 'response' envelope and its value is returned as-is — the
Python int 5, not a string. -/
theorem c8_counterexample :
    analyze_with_gemma (.response 200 "" (some (.obj [("response", Json.num 5)]))) =
      Json.num 5
    ∧ jsonIsString (analyze_with_gemma
        (.response 200 "" (some (.obj [("response", Json.num 5)])))) = false :=
  ⟨rfl, rfl⟩

/-- Witness for C8 at concrete inputs: a 404 becomes the status-carrying
error string and a timeout exception becomes a descriptive error string. -/
theorem c8_error_stringification_witness :
    analyze_with_gemma (.response 404 "missing" none) =
      .str "Error 404: The API request failed. Please try again later."
    ∧ analyze_food_invoice (.exn "Connection timed out") =
      .str "An error occurred: Connection timed out" :=
  ⟨(c8_error_stringification.1 404 "missing" none (by omega)).1,
   (c8_error_stringification.2.1 "Connection timed out").2⟩

theorem formStep_replay (F : Form) (hok : formOK F = true) (s s1 : SessionState)
    (a : Asked)
    (h : (runForm F s.user_responses).map
        (fun p => ({ s with user_responses := p.1 }, p.2)) = some (s1, a)) :
    (runForm F s1.user_responses).map
        (fun p => ({ s1 with user_responses := p.1 }, p.2)) = some (s1, a)
    ∧ (∀ kv ∈ a, getResponse? s1.user_responses kv.1.1 kv.1.2 = some kv.2)
    ∧ (WF s.user_responses → WF s1.user_responses) := by
  simp only [Option.map_eq_some'] at h
  obtain ⟨p, hp, heq⟩ := h
  obtain ⟨st', a'⟩ := p
  simp only [Prod.mk.injEq] at heq
  obtain ⟨hs1, ha⟩ := heq
  subst ha
  have hur : s1.user_responses = st' := by rw [← hs1]
  refine ⟨?_, ?_, ?_⟩
  · rw [hur, runForm_idem F s.user_responses st' a' hp hok]
    simp only [Option.map_some']
    rw [← hur]
  · intro kv hkv
    rw [hur]
    exact runForm_asked F s.user_responses st' a' hp hok kv hkv
  · intro hwf
    rw [hur]
    exact runForm_WF F s.user_responses st' a' hp hwf

theorem renderStep6_ur (compute : Store → String) (s : SessionState) :
    (renderStep6 compute false s).state.user_responses = s.user_responses := by
  unfold renderStep6 recalcEffect
  cases hfr : s.final_result <;> simp [hfr]

theorem renderStep6_state_idem (compute : Store → String) (s : SessionState) :
    (renderStep6 compute false (renderStep6 compute false s).state).state =
      (renderStep6 compute false s).state := by
  unfold renderStep6 recalcEffect
  cases hfr : s.final_result <;> simp [hfr]

/-- Claim C2: re-rendering any step with no new user input is idempotent on
the session: a second render leaves the state exactly as the first render
left it and displays the same questions, each pre-filled with precisely
the value the store then holds for it (not the stock default); and no-input
rendering preserves the store's freedom from duplicate entries. -/
theorem c2_redisplay (compute : Store → String) (analyzeInv : String → String)
    (encode : String → Option String) (k : Nat) (s s1 : SessionState) (a : Asked)
    (h : renderNoInput compute analyzeInv encode k s = some (s1, a)) :
    renderNoInput compute analyzeInv encode k s1 = some (s1, a)
    ∧ (∀ kv ∈ a, getResponse? s1.user_responses kv.1.1 kv.1.2 = some kv.2)
    ∧ (WF s.user_responses → WF s1.user_responses) := by
  rcases k with _ | _ | _ | _ | _ | _ | _ | k
  · simp only [renderNoInput, Option.some.injEq, Prod.mk.injEq] at h
    obtain ⟨hs1, ha⟩ := h
    subst hs1
    refine ⟨by simp [renderNoInput, ha], ?_, fun hwf => hwf⟩
    intro kv hkv
    rw [← ha] at hkv
    simp at hkv
  · exact formStep_replay step1Form step1Form_OK s s1 a h
  · exact formStep_replay step2Form step2Form_OK s s1 a h
  · exact formStep_replay step3Form step3Form_OK s s1 a h
  · exact formStep_replay step4Form step4Form_OK s s1 a h
  · simp only [renderNoInput, Option.some.injEq, Prod.mk.injEq] at h
    obtain ⟨hs1, ha⟩ := h
    have hstate : (renderStep5 analyzeInv encode ⟨none, false⟩ s).state = s :=
      (renderStep5_no_click analyzeInv encode ⟨none, false⟩ s rfl).1
    have hs : s1 = s := by rw [← hs1, hstate]
    subst hs
    refine ⟨?_, ?_, fun hwf => hwf⟩
    · simp only [renderNoInput, Option.some.injEq, Prod.mk.injEq]
      exact ⟨hstate, ha⟩
    · intro kv hkv
      rw [← ha] at hkv
      simp at hkv
  · simp only [renderNoInput, Option.some.injEq, Prod.mk.injEq] at h
    obtain ⟨hs1, ha⟩ := h
    refine ⟨?_, ?_, ?_⟩
    · simp only [renderNoInput, Option.some.injEq, Prod.mk.injEq]
      refine ⟨?_, ha⟩
      rw [← hs1]
      exact renderStep6_state_idem compute s
    · intro kv hkv
      rw [← ha] at hkv
      simp at hkv
    · intro hwf
      rw [← hs1, renderStep6_ur compute s]
      exact hwf
  · simp only [renderNoInput, Option.some.injEq, Prod.mk.injEq] at h
    obtain ⟨hs1, ha⟩ := h
    subst hs1
    refine ⟨by simp [renderNoInput, ha], ?_, fun hwf => hwf⟩
    intro kv hkv
    rw [← ha] at hkv
    simp at hkv

def c2WitnessOut : SessionState :=
  { current_step := 1,
    user_responses := [("transportation",
      [("primary_mode", Value.s "Car"), ("fuel_type", Value.s "Petrol/Gasoline"),
       ("distance_km", Value.f 0), ("passengers", Value.i 1)])],
    food_order_analysis := none, final_result := none }

def c2WitnessAsked : Asked :=
  [(("transportation", "primary_mode"), Value.s "Car"),
   (("transportation", "fuel_type"), Value.s "Petrol/Gasoline"),
   (("transportation", "distance_km"), Value.f 0),
   (("transportation", "passengers"), Value.i 1)]

/-- Witness for C2 at a concrete input: the first render of step 1 from
the empty session populates the store with the stock defaults, and the
second render reproduces the same state and the same pre-filled display. -/
theorem c2_redisplay_witness :
    renderNoInput (fun _ => "") (fun _ => "") (fun _ => none) 1 initState =
      some (c2WitnessOut, c2WitnessAsked)
    ∧ renderNoInput (fun _ => "") (fun _ => "") (fun _ => none) 1 c2WitnessOut =
      some (c2WitnessOut, c2WitnessAsked) :=
  ⟨rfl, (c2_redisplay (fun _ => "") (fun _ => "") (fun _ => none) 1 initState
      c2WitnessOut c2WitnessAsked rfl).1⟩
